import Mathlib

/-!
Shallow embedding of the character-sheet state & allocation engine of
LYIVX/Ender-Character-Creation.

The program is a DOM-coupled sheet editor.  The engine's state lives in the
rendered form controls; we embed it as explicit Lean data in DOM document
order.  Point-buy stats are rendered as rows of checkbox "pips"; under every
operation of the engine the checked pips of a stat form a prefix, so a stat's
state is recorded as its pip count together with the number of checked pips.

Sources (files named as given):
  * `src/unnamed/part_002` - the current sheet module (`initSheet`,
    `applySheetSnapshot`, `getSheetSnapshot`, `enforceSectionCap`, resets);
  * `src/unnamed/part_003` - the older sheet variants (legacy `.dots`
    click listener without budget caps);
  * `src/unnamed/part_000` - the tabbed `App` (session manager,
    `createInitialTabs`, relationship registry).

One component is not part of this repository: the `StatDots` React control
comes from the external `@enderfall/ui` package.  Its click behaviour is
modelled from the spec (see `statDotsClick`); everything else is translated
from the sources above.
-/

namespace CharSheet

/-- The five allocation groups (`data-section` names). -/
inductive SectionName
  | body
  | skills
  | priorities
  | mind
  | social
deriving DecidableEq, Repr

/-- `pointsCapBySection` (part_002 lines 3-9): the per-group point budget. -/
def pointsCapBySection : SectionName → Nat
  | .body => 20
  | .skills => 50
  | .priorities => 25
  | .mind => 20
  | .social => 15

/-- The `sectionName === "mind" || sectionName === "social"` test used by
`getSectionPointsUsed` and `enforceSectionCap`. -/
def isMindOrSocial : SectionName → Bool
  | .mind => true
  | .social => true
  | _ => false

/-- One point-buy stat: a dot grid with `pipCount` pips of which the first
`value` are checked. -/
structure Stat where
  label : String
  pipCount : Nat
  value : Nat
deriving DecidableEq, Repr

/-- One bipolar slider row; `key` is the `"Left / Right"` label pair. -/
structure SliderRow where
  key : String
  value : Int
  defaultValue : Int
deriving DecidableEq, Repr

/-- One boolean-trait checkbox. -/
structure TraitRow where
  label : String
  checked : Bool
deriving DecidableEq, Repr

/-- Total dots checked over a list of stats (the `:checked` count of
`getSectionPointsUsed`). -/
def sumValues (stats : List Stat) : Nat :=
  (stats.map Stat.value).sum

/-- Number of checked trait toggles. -/
def countChecked (traits : List TraitRow) : Nat :=
  traits.countP TraitRow.checked

/-! ## Pip interaction primitives

A click on a native checkbox toggles its `checked` property *before* the
`click` event is dispatched, and the toggle is reverted if the event is
cancelled.  The listeners below read checkbox state during dispatch, so the
embedding accounts for that pre-listener toggle. -/

/-- `enforceSectionCap` (part_002 lines 295-341): whether the pip at 1-based
position `k` of a stat currently at `value = v` is disabled.  Checked pips are
always enabled; an unchecked pip is disabled when the remaining budget is
exhausted or the jump `k - v` exceeds it.  `remaining` is a JS number and can
be negative, hence the `Int` arithmetic. -/
def pipDisabled (cap used v k : Nat) : Bool :=
  if k ≤ v then false
  else
    let remaining : Int := (cap : Int) - (used : Int)
    decide (remaining ≤ 0) || decide ((k : Int) - (v : Int) > remaining)

/-- The capture-phase guard on `.ef-stat-dots__input` clicks (part_002 lines
749-774).  At capture time the clicked checkbox has already been toggled, so
for a stat at `value = v` the listener observes `currentValue = v + 1` when an
unchecked pip was clicked (`v < k`) and `v - 1` otherwise, and likewise for
the section-wide `getSectionPointsUsed` figure `used`.  The listener cancels
the click (`preventDefault`) exactly when its computed `desiredValue` exceeds
its observed `currentValue` and `otherPoints + desiredValue > cap`. -/
def efVetoed (cap used v k : Nat) : Bool :=
  let currentValue : Int := if v < k then (v : Int) + 1 else (v : Int) - 1
  let sectionUsed : Int := if v < k then (used : Int) + 1 else (used : Int) - 1
  let desiredValue : Int := if (k : Int) = currentValue then 0 else (k : Int)
  if desiredValue ≤ currentValue then false
  else
    let otherPoints : Int := sectionUsed - currentValue
    decide (otherPoints + desiredValue > (cap : Int))

/-- Modelled from the spec: the `StatDots` control itself lives in the
external `@enderfall/ui` package and is not part of this repository.  Spec
§4.1: interacting with pip `k` of a stat at value `v` clears the stat when
`v == k` and otherwise sets the value to `k`.  `setStatDotsValue` and
`resetStatDotsIn` in part_002 rely on exactly this contract. -/
def statDotsClick (v k : Nat) : Nat :=
  if k = v then 0 else k

/-- A programmatic `input.click()` on pip `k` of an `.ef-stat-dots` stat
(`setStatDotsValue` first clears `disabled`, so only the capture-phase guard
can stop the click). -/
def programmaticPipClick (cap used v k : Nat) : Nat :=
  if efVetoed cap used v k then v else statDotsClick v k

/-- A user click on pip `k` of an `.ef-stat-dots` stat: a disabled pip cannot
be clicked at all, otherwise the capture guard and then the `StatDots`
control decide the new value. -/
def efUserPipClick (cap used v k : Nat) : Nat :=
  if pipDisabled cap used v k then v else programmaticPipClick cap used v k

/-- The legacy `.dots` click listener of part_002 (lines 722-747).  After the
native toggle, `box.checked` is true iff the clicked pip was unchecked
(`v < k`); the listener then rewrites the whole row to a prefix of
`nextCount` checked pips, clamping an increase to
`allowed = max(0, cap - otherPoints)`. -/
def legacyClickValue (cap used v k : Nat) : Nat :=
  let otherPoints : Int := (used : Int) - (v : Int)
  if v < k then
    let allowed : Int := max 0 ((cap : Int) - otherPoints)
    (min (k : Int) allowed).toNat
  else
    k - 1

/-- A user click on pip `k` of a legacy `.dot-input` row (subject to the same
`enforceSectionCap` disabling as above). -/
def legacyUserPipClick (cap used v k : Nat) : Nat :=
  if pipDisabled cap used v k then v else legacyClickValue cap used v k

/-- The uncapped legacy `.dots` click listener of part_003 (lines 46-60),
kept at the checkbox level: the clicked box has already been toggled when the
listener reads `box.checked`, and the listener then assigns
`item.checked = isChecked ? i <= index : i < index` to every box. -/
def dotsClickBoxes (boxes : List Bool) (index : Nat) : List Bool :=
  let isChecked := !(boxes.getD index false)
  (List.range boxes.length).map fun i =>
    if isChecked then decide (i ≤ index) else decide (i < index)

/-- A dot row with `n` pips of which the first `v` are checked. -/
def prefixBoxes (n v : Nat) : List Bool :=
  (List.range n).map fun i => decide (i < v)

/-- The value `getDotRows` reads back from a dot row: the number of checked
boxes. -/
def dotsValue (boxes : List Bool) : Nat :=
  boxes.countP id

/-! ## One allocation group and its user interactions -/

/-- Replace the element at position `i` by `f` applied to it; positions past
the end are left alone. -/
def updateAt {α : Type} (f : α → α) : Nat → List α → List α
  | _, [] => []
  | 0, x :: xs => f x :: xs
  | n + 1, x :: xs => x :: updateAt f n xs

/-- One allocation group as rendered: its dot grids, slider rows and trait
toggles in document order. -/
structure SheetSection where
  stats : List Stat
  sliders : List SliderRow
  traits : List TraitRow
deriving DecidableEq, Repr

/-- `getSectionPointsUsed` (part_002 lines 253-266): checked dots, plus, for
the groups other than mind and social, checked trait toggles. -/
def SheetSection.pointsUsed (name : SectionName) (s : SheetSection) : Nat :=
  if isMindOrSocial name then sumValues s.stats
  else sumValues s.stats + countChecked s.traits

/-- `enforceSectionCap` on trait toggles (part_002 lines 331-340): in mind and
social every toggle stays enabled; elsewhere an unchecked toggle is disabled
once the remaining budget is gone. -/
def toggleDisabled (name : SectionName) (cap used : Nat) (checked : Bool) : Bool :=
  if isMindOrSocial name then false
  else decide ((cap : Int) - (used : Int) ≤ 0) && !checked

/-- Replace a group's trait list, keeping its stats and sliders. -/
def withTraits (s : SheetSection) (tr : List TraitRow) : SheetSection :=
  { s with traits := tr }

/-- A user click on trait toggle `j`: impossible on a disabled toggle;
otherwise the checkbox flips and the `change` listener (part_002 lines
795-814) unchecks it again if the section is then over budget. -/
def traitToggle (name : SectionName) (s : SheetSection) (j : Nat) : SheetSection :=
  let cap := pointsCapBySection name
  let used := s.pointsUsed name
  match s.traits.get? j with
  | none => s
  | some row =>
      if toggleDisabled name cap used row.checked then s
      else
        let s1 := withTraits s (updateAt (fun r => { r with checked := !r.checked }) j s.traits)
        if pointsCapBySection name < s1.pointsUsed name then
          withTraits s1 (updateAt (fun r => { r with checked := false }) j s1.traits)
        else s1

/-- Set the value of the `i`-th stat of a group. -/
def setStatValue (i w : Nat) (stats : List Stat) : List Stat :=
  updateAt (fun st => { st with value := w }) i stats

/-- Replace the value of a group's `i`-th stat, keeping everything else. -/
def withStatValue (s : SheetSection) (i w : Nat) : SheetSection :=
  { s with stats := setStatValue i w s.stats }

/-- Apply one pip click (with click semantics `click`, taking cap, section
points used, current value and clicked pip) to stat `i` of a group. -/
def applyPipClick (click : Nat → Nat → Nat → Nat → Nat) (name : SectionName)
    (s : SheetSection) (i k : Nat) : SheetSection :=
  match s.stats.get? i with
  | none => s
  | some st =>
      withStatValue s i (click (pointsCapBySection name) (s.pointsUsed name) st.value k)

/-- One user interaction on a budget-capped group: a pip click on an
`.ef-stat-dots` grid, a pip click on a legacy `.dots` row, or a trait-toggle
click. -/
inductive Step (name : SectionName) : SheetSection → SheetSection → Prop
  | efPip (s : SheetSection) (i k : Nat) (hi : i < s.stats.length)
      (hk1 : 1 ≤ k) (hk : k ≤ (s.stats.get ⟨i, hi⟩).pipCount) :
      Step name s (applyPipClick efUserPipClick name s i k)
  | legacyPip (s : SheetSection) (i k : Nat) (hi : i < s.stats.length)
      (hk1 : 1 ≤ k) (hk : k ≤ (s.stats.get ⟨i, hi⟩).pipCount) :
      Step name s (applyPipClick legacyUserPipClick name s i k)
  | traitClick (s : SheetSection) (j : Nat) :
      Step name s (traitToggle name s j)

/-- Finite sequences of user interactions. -/
def Reachable (name : SectionName) : SheetSection → SheetSection → Prop :=
  Relation.ReflTransGen (Step name)

/-- The initial state of a group: no pips filled, no traits checked. -/
def allZeroSection (s : SheetSection) : Prop :=
  (∀ st ∈ s.stats, st.value = 0) ∧ ∀ r ∈ s.traits, r.checked = false

/-- A one-stat body group at the initial state (used to instantiate
hypothesis-bearing theorems at a concrete input). -/
def bodyZeroExample : SheetSection :=
  { stats := [{ label := "Strength", pipCount := 6, value := 0 }],
    sliders := [], traits := [] }

/-! ## The whole sheet and the snapshot codec

The current App (part_000) renders body, skills and priorities as bare stat
lists and mind and social as full groups with sliders and trait toggles;
`getState` (part_002 lines 227-251) reads exactly that shape.  Since no
budget-counted group carries trait toggles in this form, the
`getSectionPointsUsed` figure seen by the pip-click pipeline during snapshot
application is the running dot count alone. -/

/-- One identity `label-row`: its `<span>` key and the `<input>` value and
`defaultValue`. -/
structure IdentityRow where
  key : String
  value : String
  defaultValue : String
deriving DecidableEq, Repr

/-- One `.note-section`: its `data-note-title` and textarea value. -/
structure NoteSection where
  title : String
  text : String
deriving DecidableEq, Repr

/-- The live sheet: the interactive controls of the rendered form plus the
module-level `portraitData` ("" when no portrait is loaded). -/
structure SheetState where
  identity : List IdentityRow
  notes : List NoteSection
  body : List Stat
  skills : List Stat
  priorities : List Stat
  mind : SheetSection
  social : SheetSection
  portraitData : String
deriving DecidableEq, Repr

/-- `getDotRows`: label/checked-count pairs in document order. -/
def getDotRows (stats : List Stat) : List (String × Nat) :=
  stats.map fun st => (st.label, st.value)

/-- `getSliders`: `"Left / Right"` key and numeric value pairs. -/
def getSliders (sliders : List SliderRow) : List (String × Int) :=
  sliders.map fun r => (r.key, r.value)

/-- `getChecks`: trait label and checked pairs. -/
def getChecks (traits : List TraitRow) : List (String × Bool) :=
  traits.map fun r => (r.label, r.checked)

/-- `getIdentity`: identity key and input value pairs. -/
def getIdentity (rows : List IdentityRow) : List (String × String) :=
  rows.map fun r => (r.key, r.value)

/-- A stats-only group of a version-2 snapshot. -/
structure GroupStats where
  stats : List (String × Nat)
deriving DecidableEq, Repr

/-- A mind/social group of a version-2 snapshot. -/
structure GroupFull where
  stats : List (String × Nat)
  sliders : List (String × Int)
  traits : List (String × Bool)
deriving DecidableEq, Repr

/-- A version-2 snapshot, as produced by `getSheetSnapshot` (part_002 lines
636-643): `getState` plus the version tag and `portrait: portraitData || null`. -/
structure Snapshot where
  version : Nat
  identity : List (String × String)
  notes : List NoteSection
  body : GroupStats
  skills : GroupStats
  priorities : GroupStats
  mind : GroupFull
  social : GroupFull
  portrait : Option String
deriving DecidableEq, Repr

/-- `getSheetSnapshot` (part_002 lines 636-643). -/
def getSheetSnapshot (st : SheetState) : Snapshot :=
  { version := 2
    identity := getIdentity st.identity
    notes := st.notes
    body := { stats := getDotRows st.body }
    skills := { stats := getDotRows st.skills }
    priorities := { stats := getDotRows st.priorities }
    mind := { stats := getDotRows st.mind.stats
              sliders := getSliders st.mind.sliders
              traits := getChecks st.mind.traits }
    social := { stats := getDotRows st.social.stats
                sliders := getSliders st.social.sliders
                traits := getChecks st.social.traits }
    portrait := if st.portraitData = "" then none else some st.portraitData }

/-- The rendered group behind a `data-section` name (body, skills and
priorities carry no sliders or trait toggles in this form). -/
def sheetSectionOf (st : SheetState) : SectionName → SheetSection
  | .body => { stats := st.body, sliders := [], traits := [] }
  | .skills => { stats := st.skills, sliders := [], traits := [] }
  | .priorities => { stats := st.priorities, sliders := [], traits := [] }
  | .mind => st.mind
  | .social => st.social

/-- `getSectionPointsUsed` over the whole sheet. -/
def sheetPointsUsed (st : SheetState) (name : SectionName) : Nat :=
  (sheetSectionOf st name).pointsUsed name

/-- Walk a stat list left to right, handing each stat the
`getSectionPointsUsed` figure observed at that moment: the dots of the
already-processed prefix (`base`) plus the stat's own dots plus the dots of
the untouched suffix. -/
def mapStatsWithUsed (f : Nat → Stat → Stat) : Nat → List Stat → List Stat
  | _, [] => []
  | base, x :: rest =>
      let x1 := f (base + x.value + sumValues rest) x
      x1 :: mapStatsWithUsed f (base + x1.value) rest

/-- `setStatDotsValue` (part_002 lines 33-50) as the resulting value: clamp
the request into `[0, pipCount]`; no-op when already there; a request of 0
clicks the last checked pip, any other request clicks the pip at the
requested position (each click running the capture-phase guard and then the
`StatDots` rule). -/
def setStatDotsValueFn (cap used v npips count : Nat) : Nat :=
  if npips = 0 then v
  else
    let safe := min npips count
    if safe = v then v
    else if safe = 0 then programmaticPipClick cap used v v
    else programmaticPipClick cap used v safe

/-- `clearDotRows` (part_002 lines 52-62) on one group's stat list:
`setStatDotsValue(group, 0)` on each grid in order. -/
def clearDotRowsFn (cap : Nat) (stats : List Stat) : List Stat :=
  mapStatsWithUsed
    (fun used st => { st with value := setStatDotsValueFn cap used st.value st.pipCount 0 })
    0 stats

/-- `setDotRows` (part_002 lines 64-87) on one group's stat list: for each
grid whose label the data holds, `setStatDotsValue(group, count)` in order.
(`Number(x) || 0` makes non-numeric or negative counts behave as 0, which
`Math.max(0, ...)` in `setStatDotsValue` enforces anyway; counts are
therefore taken as naturals.) -/
def setDotRowsFn (cap : Nat) (data : List (String × Nat)) (stats : List Stat) : List Stat :=
  mapStatsWithUsed
    (fun used st =>
      match data.lookup st.label with
      | none => st
      | some c => { st with value := setStatDotsValueFn cap used st.value st.pipCount c })
    0 stats

/-- `clearChecksIn` (part_002 lines 216-225). -/
def clearChecksInFn (traits : List TraitRow) : List TraitRow :=
  traits.map fun r => { r with checked := false }

/-- `setChecks` (part_002 lines 203-214): labels present in the data get
their boolean, others stay. -/
def setChecksFn (data : List (String × Bool)) (traits : List TraitRow) : List TraitRow :=
  traits.map fun r =>
    match data.lookup r.label with
    | none => r
    | some b => { r with checked := b }

/-- `setSliders` (part_002 lines 176-190). -/
def setSlidersFn (data : List (String × Int)) (sliders : List SliderRow) : List SliderRow :=
  sliders.map fun r =>
    match data.lookup r.key with
    | none => r
    | some x => { r with value := x }

/-- `setIdentity` (part_002 lines 141-152). -/
def setIdentityFn (data : List (String × String)) (rows : List IdentityRow) : List IdentityRow :=
  rows.map fun r =>
    match data.lookup r.key with
    | none => r
    | some x => { r with value := x }

/-- `hardResetSheet` (part_002 lines 501-541): clear every dot grid (through
the click pipeline), uncheck mind/social traits, and reset every remaining
control to its DOM default - identity inputs to `defaultValue`, note
textareas to their (empty) `defaultValue`, sliders to `defaultValue`, trait
checkboxes to their (unchecked) `defaultChecked` - and drop the portrait. -/
def hardResetSheet (st : SheetState) : SheetState :=
  { identity := st.identity.map fun r => { r with value := r.defaultValue }
    notes := st.notes.map fun nsec => { nsec with text := "" }
    body := clearDotRowsFn (pointsCapBySection .body) st.body
    skills := clearDotRowsFn (pointsCapBySection .skills) st.skills
    priorities := clearDotRowsFn (pointsCapBySection .priorities) st.priorities
    mind := { stats := clearDotRowsFn (pointsCapBySection .mind) st.mind.stats
              sliders := st.mind.sliders.map fun r => { r with value := r.defaultValue }
              traits := clearChecksInFn st.mind.traits }
    social := { stats := clearDotRowsFn (pointsCapBySection .social) st.social.stats
                sliders := st.social.sliders.map fun r => { r with value := r.defaultValue }
                traits := clearChecksInFn st.social.traits }
    portraitData := "" }

/-- `applySnapshot` (part_002 lines 343-385) for a snapshot that carries
every field (as `getSheetSnapshot` output and the claims' version-2 inputs
do, making each `data.X?` presence guard pass): set identity and notes,
then per group clear and set the dot grids, set sliders, and clear and set
the trait checks. -/
def applySnapshot (st : SheetState) (data : Snapshot) : SheetState :=
  { identity := setIdentityFn data.identity st.identity
    notes := data.notes
    body := setDotRowsFn (pointsCapBySection .body) data.body.stats
      (clearDotRowsFn (pointsCapBySection .body) st.body)
    skills := setDotRowsFn (pointsCapBySection .skills) data.skills.stats
      (clearDotRowsFn (pointsCapBySection .skills) st.skills)
    priorities := setDotRowsFn (pointsCapBySection .priorities) data.priorities.stats
      (clearDotRowsFn (pointsCapBySection .priorities) st.priorities)
    mind := { stats := setDotRowsFn (pointsCapBySection .mind) data.mind.stats
                (clearDotRowsFn (pointsCapBySection .mind) st.mind.stats)
              sliders := setSlidersFn data.mind.sliders st.mind.sliders
              traits := setChecksFn data.mind.traits (clearChecksInFn st.mind.traits) }
    social := { stats := setDotRowsFn (pointsCapBySection .social) data.social.stats
                  (clearDotRowsFn (pointsCapBySection .social) st.social.stats)
                sliders := setSlidersFn data.social.sliders st.social.sliders
                traits := setChecksFn data.social.traits (clearChecksInFn st.social.traits) }
    portraitData := st.portraitData }

/-- `applySheetSnapshot` (part_002 lines 645-680) on a structured (non-legacy)
snapshot: hard reset, apply, then install the portrait when truthy. -/
def applySheetSnapshotV2 (st : SheetState) (data : Snapshot) : SheetState :=
  let st1 := applySnapshot (hardResetSheet st) data
  match data.portrait with
  | none => st1
  | some p => if p = "" then st1 else { st1 with portraitData := p }

/-- `resetStatDotsIn` (part_002 lines 566-586): for each grid with at least
one checked pip, click the last checked pip (pip `v`), one grid after the
other. -/
def resetStatDotsInFn (cap : Nat) (stats : List Stat) : List Stat :=
  mapStatsWithUsed
    (fun used st =>
      if st.value = 0 then st
      else { st with value := programmaticPipClick cap used st.value st.value })
    0 stats

/-- `resetTogglesIn` (part_002 lines 588-597). -/
def resetTogglesInFn (traits : List TraitRow) : List TraitRow :=
  traits.map fun r => { r with checked := false }

/-- `resetSectionPoints` (part_002 lines 628-634): unwind the named group's
dot grids through clicks and uncheck its toggles; nothing else. -/
def resetSectionPointsFn (name : SectionName) (st : SheetState) : SheetState :=
  match name with
  | .body => { st with body := resetStatDotsInFn (pointsCapBySection .body) st.body }
  | .skills => { st with skills := resetStatDotsInFn (pointsCapBySection .skills) st.skills }
  | .priorities =>
      { st with priorities := resetStatDotsInFn (pointsCapBySection .priorities) st.priorities }
  | .mind =>
      { st with mind := { stats := resetStatDotsInFn (pointsCapBySection .mind) st.mind.stats
                          sliders := st.mind.sliders
                          traits := resetTogglesInFn st.mind.traits } }
  | .social =>
      { st with social := { stats := resetStatDotsInFn (pointsCapBySection .social) st.social.stats
                            sliders := st.social.sliders
                            traits := resetTogglesInFn st.social.traits } }

/-- A stat list is well formed for a cap when every value fits its pip count
and the dots sum within the cap. -/
abbrev ValidStats (cap : Nat) (stats : List Stat) : Prop :=
  (∀ st ∈ stats, st.value ≤ st.pipCount) ∧ sumValues stats ≤ cap

/-- Every group of the sheet is well formed (the C1 invariant, which every
state reachable by valid operations satisfies). -/
abbrev ValidSheet (st : SheetState) : Prop :=
  ValidStats (pointsCapBySection .body) st.body
  ∧ ValidStats (pointsCapBySection .skills) st.skills
  ∧ ValidStats (pointsCapBySection .priorities) st.priorities
  ∧ ValidStats (pointsCapBySection .mind) st.mind.stats
  ∧ ValidStats (pointsCapBySection .social) st.social.stats

/-- The label/key parts of the form are duplicate-free (they are, in the
rendered form; lookups by label rely on it). -/
abbrev NodupSheet (st : SheetState) : Prop :=
  (st.identity.map IdentityRow.key).Nodup
  ∧ (st.body.map Stat.label).Nodup
  ∧ (st.skills.map Stat.label).Nodup
  ∧ (st.priorities.map Stat.label).Nodup
  ∧ (st.mind.stats.map Stat.label).Nodup
  ∧ (st.social.stats.map Stat.label).Nodup
  ∧ (st.mind.sliders.map SliderRow.key).Nodup
  ∧ (st.social.sliders.map SliderRow.key).Nodup
  ∧ (st.mind.traits.map TraitRow.label).Nodup
  ∧ (st.social.traits.map TraitRow.label).Nodup

/-- The shape of a stat list: labels and pip counts, without the values. -/
def statShape (st : Stat) : String × Nat := (st.label, st.pipCount)

/-- Two sheets render the same form: same identity keys, stat labels and pip
counts, slider keys and trait labels, in the same document order.  (Note
texts, slider defaults and all values may differ.) -/
abbrev SameShape (t s : SheetState) : Prop :=
  t.identity.map IdentityRow.key = s.identity.map IdentityRow.key
  ∧ t.body.map statShape = s.body.map statShape
  ∧ t.skills.map statShape = s.skills.map statShape
  ∧ t.priorities.map statShape = s.priorities.map statShape
  ∧ t.mind.stats.map statShape = s.mind.stats.map statShape
  ∧ t.social.stats.map statShape = s.social.stats.map statShape
  ∧ t.mind.sliders.map SliderRow.key = s.mind.sliders.map SliderRow.key
  ∧ t.social.sliders.map SliderRow.key = s.social.sliders.map SliderRow.key
  ∧ t.mind.traits.map TraitRow.label = s.mind.traits.map TraitRow.label
  ∧ t.social.traits.map TraitRow.label = s.social.traits.map TraitRow.label

/-! ## Legacy `fields` documents (version 1)

`applySheetSnapshot` (part_002 lines 650-664) maps a legacy `fields` array
positionally onto `Array.from(document.querySelectorAll(".frame input,
.frame textarea")).filter((el) => el.type !== "file")` - the interactive
controls in document order, file inputs excluded. -/

/-- A JS value carried by a legacy field entry: null/undefined, a boolean,
or a string. -/
inductive JsVal
  | vNull
  | vBool (b : Bool)
  | vStr (s : String)
deriving DecidableEq, Repr

/-- JS truthiness, as taken by `!!item.v`. -/
def JsVal.truthy : JsVal → Bool
  | .vNull => false
  | .vBool b => b
  | .vStr s => decide (s ≠ "")

/-- The string `el.value` receives from `item.v ?? ""`. -/
def JsVal.toValueString : JsVal → String
  | .vNull => ""
  | .vBool b => if b then "true" else "false"
  | .vStr s => s

/-- One legacy field entry `{t, v}`. -/
structure LField where
  t : String
  v : JsVal
deriving DecidableEq, Repr

/-- One interactive control, with the `checked` and `value` properties every
such DOM element carries. -/
structure Ctl where
  checked : Bool
  value : String
deriving DecidableEq, Repr

/-- One legacy entry applied to the control at its position:
`t === "c"` sets `checked = !!v`, anything else sets `value = v ?? ""`. -/
def applyLegacyEntry (f : LField) (c : Ctl) : Ctl :=
  if f.t = "c" then { c with checked := f.v.truthy }
  else { c with value := f.v.toValueString }

/-- `data.fields.forEach((item, index) => ...)`: walk the entries with their
index, updating the control at that position; an entry whose position has no
control (`if (!el) return`) does nothing. -/
def applyLegacyFieldsGo : List LField → Nat → List Ctl → List Ctl
  | [], _, ctls => ctls
  | f :: rest, i, ctls =>
      applyLegacyFieldsGo rest (i + 1) (updateAt (applyLegacyEntry f) i ctls)

/-- The legacy branch of `applySheetSnapshot`, on the ordered control list
(which `hardResetSheet` has just reset). -/
def applyLegacyFields (ctls : List Ctl) (fs : List LField) : List Ctl :=
  applyLegacyFieldsGo fs 0 ctls

/-- The cumulative effect of the entries on the control at position `n`:
the entry at that position applied, or the control unchanged when the array
has no entry there. -/
def entryAt (fs : List LField) (n : Nat) (c : Ctl) : Ctl :=
  match fs[n]? with
  | some f => applyLegacyEntry f c
  | none => c

/-- The just-reset control list of the legacy-import scenario: one checkbox
and two text inputs. -/
def demoCtls : List Ctl :=
  [ { checked := false, value := "" },
    { checked := false, value := "" },
    { checked := false, value := "x" } ]

/-- The legacy document `{fields: [{t:"c",v:true}, {t:"t",v:"Bob"}]}`. -/
def demoFields : List LField :=
  [ { t := "c", v := .vBool true }, { t := "t", v := .vStr "Bob" } ]

/-! ## The concrete rendered form (part_000 JSX) -/

/-- Dot grids with `npips` pips each, all cleared. -/
def mkStats (npips : Nat) (labels : List String) : List Stat :=
  labels.map fun l => { label := l, pipCount := npips, value := 0 }

/-- Slider rows at their rendered `defaultValue="5"`. -/
def mkSliders (keys : List String) : List SliderRow :=
  keys.map fun key => { key := key, value := 5, defaultValue := 5 }

/-- Unchecked trait toggles. -/
def mkTraits (labels : List String) : List TraitRow :=
  labels.map fun l => { label := l, checked := false }

/-- The sheet as first rendered by the current App: the identity defaults,
the six starting note sections, and the five groups with their stat labels
and pip counts. -/
def appInitialState : SheetState :=
  { identity :=
      [ { key := "Name", value := "Jane Doe", defaultValue := "Jane Doe" },
        { key := "Nickname", value := "Unknown", defaultValue := "Unknown" },
        { key := "Race/Species", value := "Unknown", defaultValue := "Unknown" },
        { key := "Age", value := "XX", defaultValue := "XX" },
        { key := "Gender", value := "Unknown", defaultValue := "Unknown" },
        { key := "Birthday", value := "Unknown", defaultValue := "Unknown" },
        { key := "Class/Job", value := "Unknown", defaultValue := "Unknown" },
        { key := "Height", value := "XXX cm", defaultValue := "XXX cm" } ]
    notes :=
      [ { title := "Personality", text := "" }, { title := "Hobbies", text := "" },
        { title := "Food-Related", text := "" }, { title := "Habits", text := "" },
        { title := "Quirks", text := "" }, { title := "Extras", text := "" } ]
    body := mkStats 6 ["Strength", "Dexterity", "Health", "Energy", "Beauty", "Style"]
    skills := mkStats 4
      [ "Perception", "Communication", "Persuasion", "Mediation", "Literacy", "Creativity",
        "Cooking", "Combat", "Gardening", "Dancing", "Storytelling", "Survival", "Stealth",
        "Tech Savvy", "Street Smarts", "Seduction", "Luck", "Artistry", "Music", "History",
        "Animal Care", "Child Care" ]
    priorities := mkStats 4
      [ "Justice", "Truth", "Power", "Fame", "Wealth", "Family", "Friends", "Love", "Home",
        "Health", "Approval" ]
    mind :=
      { stats := mkStats 5
          [ "Intelligence", "Happiness", "Spirituality", "Confidence", "Humor", "Anxiety",
            "Patience", "Passion" ]
        sliders := mkSliders
          [ "Nice / Mean", "Brave / Cowardly", "Pacifist / Violent", "Thoughtful / Impulsive",
            "Agreeable / Contrary", "Idealistic / Pragmatic", "Frugal / Big Spender",
            "Extrovert / Introvert", "Collected / Wild" ]
        traits := mkTraits
          [ "Ambitious", "Possessive", "Stubborn", "Jealous", "Decisive", "Perfectionist" ] }
    social :=
      { stats := mkStats 5
          [ "Charisma", "Empathy", "Generosity", "Wealth", "Aggression", "Libido" ]
        sliders := mkSliders
          [ "Honest / Deceptive", "Leader / Follower", "Polite / Rude",
            "Political / Indifferent" ]
        traits := mkTraits
          [ "Cool", "Flirty", "Cute", "Obedient", "Fun", "Forgiving", "Gullible", "Scary" ] }
    portraitData := "" }

/-- A version-2 snapshot asking the social group (cap 15) for
5 + 5 + 5 + 1 = 16 points. -/
def overBudgetSocialSnapshot : Snapshot :=
  { version := 2
    identity := []
    notes := []
    body := { stats := [] }
    skills := { stats := [] }
    priorities := { stats := [] }
    mind := { stats := [], sliders := [], traits := [] }
    social :=
      { stats := [("Charisma", 5), ("Empathy", 5), ("Generosity", 5), ("Wealth", 1)]
        sliders := [], traits := [] }
    portrait := none }


/-- The App form with a few body points spent and a portrait loaded. -/
def appExampleState : SheetState :=
  { appInitialState with
    body :=
      [ { label := "Strength", pipCount := 6, value := 6 },
        { label := "Dexterity", pipCount := 6, value := 6 },
        { label := "Health", pipCount := 6, value := 6 },
        { label := "Energy", pipCount := 6, value := 0 },
        { label := "Beauty", pipCount := 6, value := 0 },
        { label := "Style", pipCount := 6, value := 0 } ]
    portraitData := "data:image/png;base64,example" }

/-! ## The relationship registry and the tab session (part_000)

The App component keeps a list of tabs, an active tab id, the live sheet
(the DOM document, here the `SheetState`), and the live relationship
registry.  `createTabId` and `createUntitledTitle` draw on crypto and the
clock, so they appear below as generator parameters. -/

/-- One relationship registry entry (`RelationshipEntry`). -/
structure RelEntry where
  id : String
  name : String
  portrait : Option String
  relation : Option String
  sourceFile : Option String
  addedAt : Nat
deriving DecidableEq, Repr

/-- The four relationship kinds (`RelationshipTab`). -/
inductive RelKind
  | family
  | friends
  | love
  | hate
deriving DecidableEq, Repr

/-- `Record<RelationshipTab, RelationshipEntry[]>`. -/
structure RelMap where
  family : List RelEntry
  friends : List RelEntry
  love : List RelEntry
  hate : List RelEntry
deriving DecidableEq, Repr

def createRelationshipDefaults : RelMap :=
  { family := [], friends := [], love := [], hate := [] }

/-- `Record<RelationshipTab, string | null>`. -/
structure RelSel where
  family : Option String
  friends : Option String
  love : Option String
  hate : Option String
deriving DecidableEq, Repr

def createRelationshipSelectionDefaults : RelSel :=
  { family := none, friends := none, love := none, hate := none }

def RelMap.get : RelMap → RelKind → List RelEntry
  | m, .family => m.family
  | m, .friends => m.friends
  | m, .love => m.love
  | m, .hate => m.hate

/-- `{...prev, [kind]: entries}`. -/
def RelMap.set : RelMap → RelKind → List RelEntry → RelMap
  | m, .family, l => { m with family := l }
  | m, .friends, l => { m with friends := l }
  | m, .love, l => { m with love := l }
  | m, .hate, l => { m with hate := l }

def RelSel.get : RelSel → RelKind → Option String
  | m, .family => m.family
  | m, .friends => m.friends
  | m, .love => m.love
  | m, .hate => m.hate

def RelSel.set : RelSel → RelKind → Option String → RelSel
  | m, .family, v => { m with family := v }
  | m, .friends, v => { m with friends := v }
  | m, .love, v => { m with love := v }
  | m, .hate, v => { m with hate := v }

/-- A stored relationship map as read back from persistence: a kind's field
is `none` when it is absent or not an array. -/
structure RawRelMap where
  family : Option (List RelEntry)
  friends : Option (List RelEntry)
  love : Option (List RelEntry)
  hate : Option (List RelEntry)
deriving DecidableEq, Repr

/-- `normalizeRelationshipMap` (part_000 lines 107-117): each kind keeps its
stored array or falls back to the empty default; `none` for the whole value
models `undefined | null`. -/
def normalizeRelationshipMap (value : Option RawRelMap) : RelMap :=
  let fallback := createRelationshipDefaults
  match value with
  | none => fallback
  | some v =>
      { family := v.family.getD fallback.family
        friends := v.friends.getD fallback.friends
        love := v.love.getD fallback.love
        hate := v.hate.getD fallback.hate }

/-- A stored relationship selection: a kind's field is `some s` exactly when
the stored value is the string `s`. -/
structure RawRelSel where
  family : Option String
  friends : Option String
  love : Option String
  hate : Option String
deriving DecidableEq, Repr

/-- `normalizeRelationshipSelection` (part_000 lines 118-128): each kind
keeps its stored string or falls back to `null`. -/
def normalizeRelationshipSelection (value : Option RawRelSel) : RelSel :=
  match value with
  | none => createRelationshipSelectionDefaults
  | some v =>
      { family := v.family, friends := v.friends, love := v.love, hate := v.hate }

/-- A full relationship map seen as a stored one (every field is an array). -/
def RelMap.toRaw (m : RelMap) : RawRelMap :=
  { family := some m.family, friends := some m.friends
    love := some m.love, hate := some m.hate }

/-- A full selection seen as a stored one (a `some` field is a string, a
`none` field is `null`, which is not a string). -/
def RelSel.toRaw (s : RelSel) : RawRelSel :=
  { family := s.family, friends := s.friends, love := s.love, hate := s.hate }

/-- A tab's stored document: the `{__blank: true, version}` marker or a full
snapshot; `none` models `null`. -/
inductive TabDoc
  | blankMarker (version : Nat)
  | full (s : Snapshot)
deriving DecidableEq, Repr

/-- `SheetTab` (part_000 lines 23-29). -/
structure SheetTab where
  id : String
  title : String
  data : Option TabDoc
  relationships : RelMap
  relationshipSelection : RelSel
deriving DecidableEq, Repr

/-- A stored tab entry as parsed from the persisted blob: `id` and `title`
are `some` exactly when the stored field is a string, `data` passes through
(`tab?.data ?? null`), and the relationship fields are partial. -/
structure RawTab where
  id : Option String
  title : Option String
  data : Option TabDoc
  relationships : Option RawRelMap
  relationshipSelection : Option RawRelSel
deriving DecidableEq, Repr

/-- The outcome of reading the persisted blob: no stored item (or no
window), a stored item whose JSON.parse throws, or a parsed object with its
`activeId` (when a string) and `tabs` (when an array). -/
inductive StoredState
  | noStore
  | badJson
  | parsed (activeId : Option String) (tabs : Option (List RawTab))
deriving DecidableEq, Repr

/-- What `createInitialTabs` returns. -/
structure TabSession where
  activeId : String
  tabs : List SheetTab
deriving DecidableEq, Repr

/-- `String.prototype.trim`, modelled over the character list. -/
def jsTrim (s : String) : String :=
  ⟨((s.data.dropWhile Char.isWhitespace).reverse.dropWhile Char.isWhitespace).reverse⟩

/-- One stored tab restored at position `i` (the `rawTabs.map` body): a
non-string id gets a generated id, a missing or blank title gets
`createUntitledTitle(i + 1)`. -/
def restoreRawTab (idGen titleGen : Nat → String) (i : Nat) (t : RawTab) : SheetTab :=
  { id := t.id.getD (idGen i)
    title :=
      match t.title with
      | some s => if jsTrim s ≠ "" then s else titleGen (i + 1)
      | none => titleGen (i + 1)
    data := t.data
    relationships := normalizeRelationshipMap t.relationships
    relationshipSelection := normalizeRelationshipSelection t.relationshipSelection }

def restoreTabs (idGen titleGen : Nat → String) : Nat → List RawTab → List SheetTab
  | _, [] => []
  | i, t :: rest => restoreRawTab idGen titleGen i t :: restoreTabs idGen titleGen (i + 1) rest

/-- The single fresh tab built when nothing usable is stored. -/
def freshTab (fallbackId : String) (titleGen : Nat → String) : SheetTab :=
  { id := fallbackId
    title := titleGen 1
    data := none
    relationships := createRelationshipDefaults
    relationshipSelection := createRelationshipSelectionDefaults }

def createFreshSession (fallbackId : String) (titleGen : Nat → String) : TabSession :=
  { activeId := fallbackId, tabs := [freshTab fallbackId titleGen] }

/-- `createInitialTabs` (part_000 lines 147-189), with the generated
fallback id and the id/title generators as parameters: restore the stored
tabs when there are any, keep the stored active id only when it names a
restored tab, and otherwise fall back to a single fresh tab. -/
def createInitialTabs (fallbackId : String) (idGen titleGen : Nat → String) :
    StoredState → TabSession
  | .parsed storedActive rawTabs =>
      match restoreTabs idGen titleGen 0 (rawTabs.getD []) with
      | [] => createFreshSession fallbackId titleGen
      | t0 :: rest =>
          { activeId :=
              match storedActive with
              | some a => if (t0 :: rest).any (fun tab => tab.id == a) then a else t0.id
              | none => t0.id
            tabs := t0 :: rest }
  | _ => createFreshSession fallbackId titleGen

/-- JS falsiness of a `string | null` selection: `null` and `""`. -/
def selectionFalsy : Option String → Bool
  | none => true
  | some s => decide (s = "")

/-- `handleRelationshipImport` (part_000 lines 770-793) after the chosen
files have been parsed to `entries` (in file order, `none` for a file whose
parse threw): prepend the successfully parsed entries to the target kind's
list and, when the target kind's selection is falsy, select the first new
entry. -/
def handleRelationshipImport (target : RelKind) (entries : List (Option RelEntry))
    (rm : RelMap) (sel : RelSel) : RelMap × RelSel :=
  let valid := entries.filterMap (fun e => e)
  match valid with
  | [] => (rm, sel)
  | v :: rest =>
      let rm1 := rm.set target ((v :: rest) ++ rm.get target)
      let sel1 :=
        if selectionFalsy (sel.get target) then sel.set target (some v.id) else sel
      (rm1, sel1)

/-- The App's live session state. -/
structure Session where
  tabs : List SheetTab
  activeTabId : String
  live : SheetState
  relMap : RelMap
  relSel : RelSel
deriving DecidableEq, Repr

/-- The body of `commitActiveTab`'s map: the active tab receives the live
snapshot and a copy of the live relationship registry. -/
def commitFun (s : Session) (tab : SheetTab) : SheetTab :=
  if tab.id == s.activeTabId then
    { tab with
        data := some (.full (getSheetSnapshot s.live))
        relationships := s.relMap
        relationshipSelection := s.relSel }
  else tab

/-- `commitActiveTab` (part_000 lines 588-602). -/
def commitActiveTab (s : Session) : Session :=
  { s with tabs := s.tabs.map (commitFun s) }

/-- The first truthy of a JS `a || b || ...` chain of possibly-missing
strings (the empty string is falsy). -/
def firstTruthyString : List (Option String) → Option String
  | [] => none
  | none :: rest => firstTruthyString rest
  | some s :: rest => if s = "" then firstTruthyString rest else some s

/-- `getCharacterNameFromSnapshot` (part_000 lines 191-199): empty for the
blank marker and missing data, else the first truthy of the four identity
name keys, trimmed. -/
def getCharacterNameFromSnapshot : Option TabDoc → String
  | some (.blankMarker _) => ""
  | none => ""
  | some (.full d) =>
      match firstTruthyString
          [d.identity.lookup "Name", d.identity.lookup "name",
            d.identity.lookup "Character Name", d.identity.lookup "characterName"] with
      | some s => jsTrim s
      | none => ""

/-- `tabs.map` storing a document into one tab (the blank-marker
materialization in `applyTabSnapshot`). -/
def updateTabDoc (tabId : String) (doc : Option TabDoc) (tabs : List SheetTab) :
    List SheetTab :=
  tabs.map (fun tab => if tab.id == tabId then { tab with data := doc } else tab)

/-- `tabs.map` retitling one tab. -/
def updateTabTitle (tabId title : String) (tabs : List SheetTab) : List SheetTab :=
  tabs.map (fun tab => if tab.id == tabId then { tab with title := title } else tab)

/-- `applyTabSnapshot` (part_000 lines 604-625), with the blank snapshot
(built by `getBlankSnapshot` from the module defaults) as a parameter: apply
the target tab's stored document to the live sheet - materializing the
blank marker, hard-resetting on missing data - restore the target's
relationship registry through the normalizers, and refresh the target's
title from the document's character name when it is nonempty. -/
def applyTabSnapshot (blank : Snapshot) (s : Session) (tabId : String) : Session :=
  let target := s.tabs.find? (fun tab => tab.id == tabId)
  let isBlank : Bool :=
    match target with
    | some t => match t.data with | some (.blankMarker _) => true | _ => false
    | none => false
  let live1 :=
    if isBlank then applySheetSnapshotV2 s.live blank
    else
      match target.bind SheetTab.data with
      | some (.full d) => applySheetSnapshotV2 s.live d
      | _ => hardResetSheet s.live
  let tabs1 := if isBlank then updateTabDoc tabId (some (.full blank)) s.tabs else s.tabs
  let relMap1 := normalizeRelationshipMap ((target.map SheetTab.relationships).map RelMap.toRaw)
  let relSel1 :=
    normalizeRelationshipSelection
      ((target.map SheetTab.relationshipSelection).map RelSel.toRaw)
  let nextTitle := getCharacterNameFromSnapshot (target.bind SheetTab.data)
  let tabs2 := if nextTitle ≠ "" then updateTabTitle tabId nextTitle tabs1 else tabs1
  { s with live := live1, tabs := tabs2, relMap := relMap1, relSel := relSel1 }

/-- `setActiveTab` (part_000 lines 635-641): a no-op on the already-active
tab; otherwise commit the active tab, move the active id, and apply the
target tab's stored document (the requestAnimationFrame deferral runs the
apply immediately here, before anything else touches the session). -/
def setActiveTab (blank : Snapshot) (s : Session) (tabId : String) : Session :=
  if tabId == s.activeTabId then s
  else applyTabSnapshot blank { commitActiveTab s with activeTabId := tabId } tabId

/-- Mutating the live document and registry while a tab is active (what the
sheet listeners and relationship editors do between switches). -/
def mutateLive (s : Session) (live2 : SheetState) (rm2 : RelMap) (sel2 : RelSel) :
    Session :=
  { s with live := live2, relMap := rm2, relSel := sel2 }

/-- Switch away to `bId`, mutate the live document and registry, switch
back: the tab-isolation scenario. -/
def switchMutateSwitch (blank : Snapshot) (s : Session) (bId : String)
    (live2 : SheetState) (rm2 : RelMap) (sel2 : RelSel) : Session :=
  setActiveTab blank (mutateLive (setActiveTab blank s bId) live2 rm2 sel2) s.activeTabId

/-! ## Concrete session inputs -/

def demoIdGen (n : Nat) : String := "gen-" ++ toString n

def demoTitleGen (n : Nat) : String := "Untitled " ++ toString n

/-- Two stored tab entries: the first with no id and a blank title, the
second fully named. -/
def demoRawTabs : List RawTab :=
  [ { id := none, title := some "  ", data := none,
      relationships := none, relationshipSelection := none },
    { id := some "t2", title := some "Alice", data := none,
      relationships := none, relationshipSelection := none } ]

/-- A stored blob whose activeId names no restored tab. -/
def demoStored : StoredState := .parsed (some "zzz") (some demoRawTabs)

def demoEntryA : RelEntry :=
  { id := "r1", name := "Ann", portrait := none, relation := none,
    sourceFile := some "ann.json", addedAt := 1 }

def demoEntryB : RelEntry :=
  { id := "r2", name := "Ben", portrait := none, relation := none,
    sourceFile := some "ben.json", addedAt := 2 }

def demoOldEntry : RelEntry :=
  { id := "r0", name := "Old", portrait := none, relation := none,
    sourceFile := none, addedAt := 0 }

def demoRelMap : RelMap :=
  { family := [], friends := [demoOldEntry], love := [], hate := [] }

def demoRelSel : RelSel :=
  { family := none, friends := none, love := some "x", hate := none }

def demoTabA : SheetTab :=
  { id := "a", title := "A", data := none,
    relationships := createRelationshipDefaults,
    relationshipSelection := createRelationshipSelectionDefaults }

def demoTabB : SheetTab :=
  { id := "b", title := "B", data := none,
    relationships := createRelationshipDefaults,
    relationshipSelection := createRelationshipSelectionDefaults }

/-- A two-tab session with tab "a" active over the App's initial sheet. -/
def demoSession : Session :=
  { tabs := [demoTabA, demoTabB], activeTabId := "a", live := appInitialState,
    relMap := demoRelMap, relSel := demoRelSel }

/-- A stand-in for the blank snapshot the module defaults produce. -/
def demoBlank : Snapshot := getSheetSnapshot appInitialState

/-! ## Lemmas -/

theorem updateAt_length {α : Type} (f : α → α) :
    ∀ (i : Nat) (l : List α), (updateAt f i l).length = l.length := by
  intro i l
  induction l generalizing i with
  | nil => cases i <;> rfl
  | cons x xs ih => cases i with
    | zero => rfl
    | succ n => simpa [updateAt] using ih n

theorem sumValues_setStatValue (stats : List Stat) :
    ∀ (i w : Nat) (hi : i < stats.length),
      sumValues (setStatValue i w stats) + (stats.get ⟨i, hi⟩).value
        = sumValues stats + w := by
  induction stats with
  | nil => intro i w hi; simp at hi
  | cons st rest ih =>
      intro i w hi
      cases i with
      | zero => simp [setStatValue, updateAt, sumValues]; omega
      | succ n =>
          have hn : n < rest.length := by simpa using hi
          have := ih n w hn
          simp only [setStatValue, updateAt, sumValues, List.map_cons, List.sum_cons,
            List.get_cons_succ] at *
          omega

theorem get_value_le_sumValues (stats : List Stat) :
    ∀ (i : Nat) (hi : i < stats.length), (stats.get ⟨i, hi⟩).value ≤ sumValues stats := by
  induction stats with
  | nil => intro i hi; simp at hi
  | cons st rest ih =>
      intro i hi
      cases i with
      | zero => simp [sumValues]
      | succ n =>
          have hn : n < rest.length := by simpa using hi
          have := ih n hn
          simp only [sumValues, List.map_cons, List.sum_cons, List.get_cons_succ] at *
          omega

theorem countChecked_updateAt (f : TraitRow → TraitRow) (traits : List TraitRow) :
    ∀ (j : Nat) (hj : j < traits.length),
      countChecked (updateAt f j traits)
          + (if (traits.get ⟨j, hj⟩).checked then 1 else 0)
        = countChecked traits + (if (f (traits.get ⟨j, hj⟩)).checked then 1 else 0) := by
  induction traits with
  | nil => intro j hj; simp at hj
  | cons r rest ih =>
      intro j hj
      cases j with
      | zero =>
          simp only [updateAt, countChecked, List.countP_cons, List.get]
          by_cases h1 : r.checked <;> by_cases h2 : (f r).checked <;> simp [h1, h2]
      | succ n =>
          have hn : n < rest.length := by simpa using hj
          have := ih n hn
          simp only [updateAt, countChecked, List.countP_cons, List.get_cons_succ] at *
          omega

theorem pointsUsed_def (name : SectionName) (s : SheetSection) :
    s.pointsUsed name
      = sumValues s.stats + (if isMindOrSocial name then 0 else countChecked s.traits) := by
  unfold SheetSection.pointsUsed
  split_ifs <;> omega

theorem efUserPipClick_cases (cap used v k : Nat) (hv : v ≤ used) :
    efUserPipClick cap used v k ≤ v ∨ used - v + efUserPipClick cap used v k ≤ cap := by
  simp only [efUserPipClick, programmaticPipClick, efVetoed, pipDisabled, statDotsClick,
    decide_eq_true_eq, Bool.or_eq_true, gt_iff_lt]
  split_ifs <;> simp only [decide_eq_true_eq, Bool.or_eq_true, not_or] at * <;> omega

theorem legacyUserPipClick_cases (cap used v k : Nat) (hv : v ≤ used) :
    legacyUserPipClick cap used v k ≤ v ∨ used - v + legacyUserPipClick cap used v k ≤ cap := by
  simp only [legacyUserPipClick, legacyClickValue, pipDisabled,
    decide_eq_true_eq, Bool.or_eq_true, gt_iff_lt]
  rcases le_total ((cap : Int) - ((used : Int) - (v : Int))) 0 with hco | hco
  · rw [max_eq_left hco, min_eq_right (Int.ofNat_nonneg k)]
    split_ifs <;> simp only [decide_eq_true_eq, Bool.or_eq_true, not_or] at * <;> omega
  · rw [max_eq_right hco]
    rcases le_total (k : Int) ((cap : Int) - ((used : Int) - (v : Int))) with hm | hm
    · rw [min_eq_left hm]
      split_ifs <;> simp only [decide_eq_true_eq, Bool.or_eq_true, not_or] at * <;> omega
    · rw [min_eq_right hm]
      split_ifs <;> simp only [decide_eq_true_eq, Bool.or_eq_true, not_or] at * <;> omega

theorem stats_withTraits (s : SheetSection) (tr : List TraitRow) :
    (withTraits s tr).stats = s.stats := rfl

theorem pointsUsed_withTraits (name : SectionName) (s : SheetSection) (tr : List TraitRow) :
    (withTraits s tr).pointsUsed name
      = sumValues s.stats + (if isMindOrSocial name then 0 else countChecked tr) := by
  rw [pointsUsed_def]; rfl

theorem pointsUsed_withStatValue (name : SectionName) (s : SheetSection) (i w : Nat) :
    (withStatValue s i w).pointsUsed name
      = sumValues (setStatValue i w s.stats)
        + (if isMindOrSocial name then 0 else countChecked s.traits) := by
  rw [pointsUsed_def]; rfl

theorem applyPipClick_preserves (click : Nat → Nat → Nat → Nat → Nat)
    (hclick : ∀ cap used v k, v ≤ used →
      click cap used v k ≤ v ∨ used - v + click cap used v k ≤ cap)
    (name : SectionName) (s : SheetSection) (i k : Nat)
    (hinv : s.pointsUsed name ≤ pointsCapBySection name) :
    (applyPipClick click name s i k).pointsUsed name ≤ pointsCapBySection name := by
  have hmain : ∀ st, s.stats.get? i = some st →
      (withStatValue s i
          (click (pointsCapBySection name) (s.pointsUsed name) st.value k)).pointsUsed name
        ≤ pointsCapBySection name := by
    intro st hg
    obtain ⟨hi, hst⟩ := List.get?_eq_some.mp hg
    have hsum := sumValues_setStatValue s.stats i
      (click (pointsCapBySection name) (s.pointsUsed name) st.value k) hi
    have hvle := get_value_le_sumValues s.stats i hi
    have hups := pointsUsed_def name s
    have hvu : st.value ≤ s.pointsUsed name := by rw [hups, ← hst]; omega
    have hcases := hclick (pointsCapBySection name) (s.pointsUsed name) st.value k hvu
    rw [pointsUsed_withStatValue]
    rw [hst] at hsum hvle
    omega
  unfold applyPipClick
  cases hg : s.stats.get? i with
  | none => exact hinv
  | some st => exact hmain st hg

theorem traitToggle_preserves (name : SectionName) (s : SheetSection) (j : Nat)
    (hinv : s.pointsUsed name ≤ pointsCapBySection name) :
    (traitToggle name s j).pointsUsed name ≤ pointsCapBySection name := by
  have hmain : ∀ row, s.traits.get? j = some row →
      (if toggleDisabled name (pointsCapBySection name) (s.pointsUsed name) row.checked
        then s
        else
          if pointsCapBySection name
              < (withTraits s
                  (updateAt (fun r => { r with checked := !r.checked }) j s.traits)).pointsUsed
                  name
          then
            withTraits
              (withTraits s (updateAt (fun r => { r with checked := !r.checked }) j s.traits))
              (updateAt (fun r => { r with checked := false }) j
                (withTraits s
                  (updateAt (fun r => { r with checked := !r.checked }) j s.traits)).traits)
          else
            withTraits s
              (updateAt (fun r => { r with checked := !r.checked }) j s.traits)).pointsUsed
          name
        ≤ pointsCapBySection name := by
    intro row hg
    obtain ⟨hj, hrow⟩ := List.get?_eq_some.mp hg
    have hflip := countChecked_updateAt (fun r => { r with checked := !r.checked }) s.traits j hj
    rw [hrow] at hflip
    have h2 := pointsUsed_def name s
    by_cases hd :
        toggleDisabled name (pointsCapBySection name) (s.pointsUsed name) row.checked = true
    · rw [if_pos hd]; exact hinv
    · rw [if_neg hd]
      by_cases hml : isMindOrSocial name
      · have h2m : s.pointsUsed name = sumValues s.stats := by
          rw [pointsUsed_def]; simp [hml]
        split_ifs with hover <;>
          · rw [pointsUsed_withTraits]
            simp only [stats_withTraits, hml, if_true]
            omega
      · have h2m : s.pointsUsed name = sumValues s.stats + countChecked s.traits := by
          rw [pointsUsed_def]; simp [hml]
        have hpw : (withTraits s
              (updateAt (fun r => { r with checked := !r.checked }) j s.traits)).pointsUsed name
            = sumValues s.stats
              + countChecked (updateAt (fun r => { r with checked := !r.checked }) j s.traits) := by
          rw [pointsUsed_withTraits]; simp [hml]
        by_cases hc : row.checked
        · have hflip2 : countChecked
                (updateAt (fun r => { r with checked := !r.checked }) j s.traits) + 1
              = countChecked s.traits := by
            simpa [hc] using hflip
          split_ifs with hover
          · exfalso; rw [hpw] at hover; omega
          · rw [hpw]; omega
        · have hcap : ¬((pointsCapBySection name : Int) - (s.pointsUsed name : Int) ≤ 0) := by
            intro hle
            apply hd
            simp [toggleDisabled, hml, hc, hle]
          have hflip2 : countChecked
                (updateAt (fun r => { r with checked := !r.checked }) j s.traits)
              = countChecked s.traits + 1 := by
            simpa [hc] using hflip
          split_ifs with hover
          · exfalso; rw [hpw] at hover; omega
          · rw [hpw]; omega
  unfold traitToggle
  cases hg : s.traits.get? j with
  | none => exact hinv
  | some row => exact hmain row hg

theorem step_preserves_budget {name : SectionName} {s t : SheetSection}
    (h : Step name s t) (hinv : s.pointsUsed name ≤ pointsCapBySection name) :
    t.pointsUsed name ≤ pointsCapBySection name := by
  cases h with
  | efPip i k hi hk1 hk =>
      exact applyPipClick_preserves efUserPipClick
        (fun c u v k hv => efUserPipClick_cases c u v k hv) name s i k hinv
  | legacyPip i k hi hk1 hk =>
      exact applyPipClick_preserves legacyUserPipClick
        (fun c u v k hv => legacyUserPipClick_cases c u v k hv) name s i k hinv
  | traitClick j => exact traitToggle_preserves name s j hinv

theorem countP_range_lt (n v : Nat) :
    (List.range n).countP (fun i => decide (i < v)) = min v n := by
  induction n with
  | zero => simp
  | succ n ih =>
      rw [List.range_succ, List.countP_append]
      simp only [List.countP_cons, List.countP_nil]
      by_cases h : n < v <;> simp [h, ih] <;> omega

theorem dotsValue_prefixBoxes (n v : Nat) (hv : v ≤ n) :
    dotsValue (prefixBoxes n v) = v := by
  simp only [dotsValue, prefixBoxes, List.countP_map]
  have hco : (id ∘ fun i => decide (i < v)) = fun i => decide (i < v) := rfl
  rw [hco, countP_range_lt]
  omega

theorem getD_prefixBoxes (n v i : Nat) (hi : i < n) :
    (prefixBoxes n v).getD i false = decide (i < v) := by
  simp only [prefixBoxes]
  rw [List.getD_eq_getElem?_getD]
  simp [List.getElem?_map, List.getElem?_range, hi]

theorem dotsClickBoxes_prefix (n v k : Nat) (hk1 : 1 ≤ k) (hkn : k ≤ n) :
    dotsClickBoxes (prefixBoxes n v) (k - 1) = prefixBoxes n (if v < k then k else k - 1) := by
  have hlen : (prefixBoxes n v).length = n := by simp [prefixBoxes]
  have hidx : k - 1 < n := by omega
  simp only [dotsClickBoxes, hlen, getD_prefixBoxes n v (k - 1) hidx]
  by_cases hvk : v < k
  · have h1 : decide (k - 1 < v) = false := by simp; omega
    simp only [h1, Bool.not_false, if_true, prefixBoxes, if_pos hvk]
    apply List.map_congr_left
    intro a ha
    have hiff : a ≤ k - 1 ↔ a < k := by omega
    simp [hiff]
  · have h1 : decide (k - 1 < v) = true := by simp; omega
    simp only [h1, Bool.not_true, prefixBoxes, if_neg hvk]
    simp

theorem programmaticPipClick_self (cap u v : Nat) (hv : 1 ≤ v) (hcap : u ≤ cap) :
    programmaticPipClick cap u v v = 0 := by
  have hveto : efVetoed cap u v v = false := by
    simp only [efVetoed]
    split_ifs <;> first | rfl | (simp only [decide_eq_false_iff_not]; omega)
  simp [programmaticPipClick, hveto, statDotsClick]

theorem programmaticPipClick_from_zero (cap u k : Nat) (hk : 1 ≤ k) (hcap : u + k ≤ cap) :
    programmaticPipClick cap u 0 k = k := by
  have hveto : efVetoed cap u 0 k = false := by
    simp only [efVetoed]
    split_ifs <;> first | rfl | (simp only [decide_eq_false_iff_not]; omega)
  simp only [programmaticPipClick, hveto, Bool.false_eq_true, if_false, statDotsClick]
  rw [if_neg (by omega : ¬ k = 0)]

theorem sumValues_cons (x : Stat) (rest : List Stat) :
    sumValues (x :: rest) = x.value + sumValues rest := by
  simp [sumValues]

theorem sumValues_map_zero (l : List Stat) :
    sumValues (l.map fun st => { st with value := 0 }) = 0 := by
  induction l with
  | nil => rfl
  | cons x xs ih => rw [List.map_cons, sumValues_cons, ih]

theorem clearDotRows_zeroes_aux (cap : Nat) :
    ∀ (stats : List Stat) (base : Nat),
      (∀ st ∈ stats, st.value ≤ st.pipCount) → base + sumValues stats ≤ cap →
      mapStatsWithUsed
          (fun used st => { st with value := setStatDotsValueFn cap used st.value st.pipCount 0 })
          base stats
        = stats.map fun st => { st with value := 0 } := by
  intro stats
  induction stats with
  | nil => intro base hval hcap; rfl
  | cons x rest ih =>
      intro base hval hcap
      rw [sumValues_cons] at hcap
      have hx : x.value ≤ x.pipCount := hval x (by simp)
      have hnew : setStatDotsValueFn cap (base + x.value + sumValues rest) x.value x.pipCount 0
          = 0 := by
        unfold setStatDotsValueFn
        by_cases h0 : x.pipCount = 0
        · rw [if_pos h0]; omega
        · rw [if_neg h0]
          simp only [Nat.min_zero]
          by_cases hv0 : x.value = 0
          · rw [if_pos hv0.symm]; exact hv0
          · rw [if_neg (fun h => hv0 h.symm), if_pos trivial]
            exact programmaticPipClick_self cap _ x.value (by omega) (by omega)
      simp only [mapStatsWithUsed, hnew, List.map_cons, Nat.add_zero]
      exact congrArg _ (ih base (fun st hst => hval st (by simp [hst])) (by omega))

theorem resetStatDots_zeroes_aux (cap : Nat) :
    ∀ (stats : List Stat) (base : Nat),
      base + sumValues stats ≤ cap →
      mapStatsWithUsed
          (fun used st =>
            if st.value = 0 then st
            else { st with value := programmaticPipClick cap used st.value st.value })
          base stats
        = stats.map fun st => { st with value := 0 } := by
  intro stats
  induction stats with
  | nil => intro base hcap; rfl
  | cons x rest ih =>
      intro base hcap
      rw [sumValues_cons] at hcap
      by_cases hv0 : x.value = 0
      · have hid : ({ x with value := 0 } : Stat) = x := by
          cases x; simp_all
        simp only [mapStatsWithUsed, hv0, if_true, List.map_cons, hid, Nat.add_zero]
        exact congrArg _ (ih base (by omega))
      · have hnew : programmaticPipClick cap (base + x.value + sumValues rest) x.value x.value
            = 0 := programmaticPipClick_self cap _ x.value (by omega) (by omega)
        simp only [mapStatsWithUsed, if_neg hv0, hnew, List.map_cons, Nat.add_zero]
        exact congrArg _ (ih base (by omega))

theorem setDotRows_restore_aux (cap : Nat) (data : List (String × Nat)) :
    ∀ (orig : List Stat) (base : Nat),
      (∀ st ∈ orig, data.lookup st.label = some st.value) →
      (∀ st ∈ orig, st.value ≤ st.pipCount) →
      base + sumValues orig ≤ cap →
      mapStatsWithUsed
          (fun used st =>
            match data.lookup st.label with
            | none => st
            | some c => { st with value := setStatDotsValueFn cap used st.value st.pipCount c })
          base (orig.map fun st => { st with value := 0 })
        = orig := by
  intro orig
  induction orig with
  | nil => intro base hlook hval hcap; rfl
  | cons x rest ih =>
      intro base hlook hval hcap
      rw [sumValues_cons] at hcap
      have hx : x.value ≤ x.pipCount := hval x (by simp)
      have hlx : data.lookup x.label = some x.value := hlook x (by simp)
      have hused : (0 : Nat) + sumValues (rest.map fun st => { st with value := 0 }) = 0 := by
        rw [sumValues_map_zero]
      have hnew : setStatDotsValueFn cap (base + 0 + sumValues
            (rest.map fun st => { st with value := 0 })) 0 x.pipCount x.value = x.value := by
        rw [sumValues_map_zero]
        unfold setStatDotsValueFn
        by_cases h0 : x.pipCount = 0
        · rw [if_pos h0]; omega
        · rw [if_neg h0]
          have hmin : min x.pipCount x.value = x.value := Nat.min_eq_right hx
          rw [hmin]
          by_cases hv0 : x.value = 0
          · rw [if_pos hv0]; exact hv0.symm
          · rw [if_neg hv0, if_neg hv0]
            exact programmaticPipClick_from_zero cap _ x.value (by omega) (by omega)
      simp only [List.map_cons, mapStatsWithUsed, hlx, hnew]
      exact congrArg _ (ih (base + x.value)
        (fun st hst => hlook st (by simp [hst]))
        (fun st hst => hval st (by simp [hst]))
        (by omega))

theorem lookup_of_map {α β : Type} (key : α → String) (val : α → β) :
    ∀ (l : List α), (l.map key).Nodup →
      ∀ x ∈ l, (l.map fun a => (key a, val a)).lookup (key x) = some (val x) := by
  intro l
  induction l with
  | nil => intro _ x hx; simp at hx
  | cons a rest ih =>
      intro hnd x hx
      rw [List.map_cons, List.nodup_cons] at hnd
      rcases List.mem_cons.mp hx with rfl | hxr
      · simp [List.lookup]
      · have hne : key x ≠ key a := by
          intro he
          exact hnd.1 (he ▸ List.mem_map_of_mem key hxr)
        have hbeq : (key x == key a) = false := by
          simpa [beq_iff_eq] using hne
        simp only [List.map_cons, List.lookup, hbeq]
        exact ih hnd.2 x hxr

theorem map_zero_of_shape :
    ∀ (l1 l2 : List Stat), l1.map statShape = l2.map statShape →
      (l1.map fun st => { st with value := 0 }) = l2.map fun st => { st with value := 0 } := by
  intro l1
  induction l1 with
  | nil => intro l2 h; cases l2 <;> simp_all
  | cons x rest ih =>
      intro l2 h
      cases l2 with
      | nil => simp at h
      | cons y rest2 =>
          simp only [List.map_cons, List.cons.injEq, statShape] at h ⊢
          obtain ⟨hhead, htail⟩ := h
          have hl : x.label = y.label := congrArg Prod.fst hhead
          have hp : x.pipCount = y.pipCount := congrArg Prod.snd hhead
          refine ⟨?_, ih rest2 htail⟩
          cases x; cases y; simp_all

theorem setChecks_restore_aux (data : List (String × Bool)) :
    ∀ (torig sorig : List TraitRow),
      torig.map TraitRow.label = sorig.map TraitRow.label →
      (∀ s ∈ sorig, data.lookup s.label = some s.checked) →
      setChecksFn data (clearChecksInFn torig) = sorig := by
  intro torig
  induction torig with
  | nil => intro sorig h _; cases sorig <;> simp_all [setChecksFn, clearChecksInFn]
  | cons t trest ih =>
      intro sorig h hlook
      cases sorig with
      | nil => simp at h
      | cons s srest =>
          simp only [List.map_cons, List.cons.injEq] at h
          obtain ⟨hlab, htail⟩ := h
          have hls : data.lookup t.label = some s.checked := by
            rw [hlab]; exact hlook s (by simp)
          simp only [setChecksFn, clearChecksInFn, List.map_cons]
          rw [List.cons.injEq]
          constructor
          · cases t; cases s; simp_all
          · exact ih srest htail fun r hr => hlook r (by simp [hr])

theorem setSliders_restore_aux (data : List (String × Int)) :
    ∀ (torig sorig : List SliderRow),
      torig.map SliderRow.key = sorig.map SliderRow.key →
      (∀ s ∈ sorig, data.lookup s.key = some s.value) →
      getSliders (setSlidersFn data torig) = getSliders sorig := by
  intro torig
  induction torig with
  | nil => intro sorig h _; cases sorig <;> simp_all [getSliders, setSlidersFn]
  | cons t trest ih =>
      intro sorig h hlook
      cases sorig with
      | nil => simp at h
      | cons s srest =>
          simp only [List.map_cons, List.cons.injEq] at h
          obtain ⟨hkey, htail⟩ := h
          have hls : data.lookup t.key = some s.value := by
            rw [hkey]; exact hlook s (by simp)
          simp only [setSlidersFn, getSliders, List.map_cons]
          rw [List.cons.injEq]
          constructor
          · cases t; cases s; simp_all
          · have := ih srest htail fun r hr => hlook r (by simp [hr])
            simpa [getSliders, setSlidersFn] using this

theorem setIdentity_restore_aux (data : List (String × String)) :
    ∀ (torig sorig : List IdentityRow),
      torig.map IdentityRow.key = sorig.map IdentityRow.key →
      (∀ s ∈ sorig, data.lookup s.key = some s.value) →
      getIdentity (setIdentityFn data torig) = getIdentity sorig := by
  intro torig
  induction torig with
  | nil => intro sorig h _; cases sorig <;> simp_all [getIdentity, setIdentityFn]
  | cons t trest ih =>
      intro sorig h hlook
      cases sorig with
      | nil => simp at h
      | cons s srest =>
          simp only [List.map_cons, List.cons.injEq] at h
          obtain ⟨hkey, htail⟩ := h
          have hls : data.lookup t.key = some s.value := by
            rw [hkey]; exact hlook s (by simp)
          simp only [setIdentityFn, getIdentity, List.map_cons]
          rw [List.cons.injEq]
          constructor
          · cases t; cases s; simp_all
          · have := ih srest htail fun r hr => hlook r (by simp [hr])
            simpa [getIdentity, setIdentityFn] using this

theorem stats_roundtrip (cap : Nat) (tstats sstats : List Stat)
    (hshape : tstats.map statShape = sstats.map statShape)
    (hnd : (sstats.map Stat.label).Nodup)
    (hvt : ∀ st ∈ tstats, st.value ≤ st.pipCount) (hct : sumValues tstats ≤ cap)
    (hvs : ∀ st ∈ sstats, st.value ≤ st.pipCount) (hcs : sumValues sstats ≤ cap) :
    setDotRowsFn cap (getDotRows sstats) (clearDotRowsFn cap (clearDotRowsFn cap tstats))
      = sstats := by
  have hclear1 : clearDotRowsFn cap tstats = tstats.map fun st => { st with value := 0 } :=
    clearDotRows_zeroes_aux cap tstats 0 hvt (by omega)
  have hzero_vals : ∀ st ∈ tstats.map fun st => ({ st with value := 0 } : Stat),
      st.value ≤ st.pipCount := by
    intro st hst
    obtain ⟨u, hu, rfl⟩ := List.mem_map.mp hst
    simp
  have hclear2 : clearDotRowsFn cap (tstats.map fun st => { st with value := 0 })
      = (tstats.map fun st => ({ st with value := 0 } : Stat)).map
          fun st => { st with value := 0 } :=
    clearDotRows_zeroes_aux cap _ 0 hzero_vals (by rw [sumValues_map_zero]; omega)
  have hzz : (tstats.map fun st => ({ st with value := 0 } : Stat)).map
        (fun st => { st with value := 0 })
      = sstats.map fun st => { st with value := 0 } := by
    rw [List.map_map]
    exact map_zero_of_shape tstats sstats hshape
  rw [hclear1, hclear2, hzz]
  exact setDotRows_restore_aux cap (getDotRows sstats) sstats 0
    (lookup_of_map Stat.label Stat.value sstats hnd) hvs (by omega)

theorem applySheet_roundtrip (t s : SheetState)
    (hshape : SameShape t s) (hvt : ValidSheet t) (hvs : ValidSheet s) (hnd : NodupSheet s) :
    getSheetSnapshot (applySheetSnapshotV2 t (getSheetSnapshot s)) = getSheetSnapshot s := by
  obtain ⟨hsI, hsB, hsS, hsP, hsM, hsSo, hsMS, hsSS, hsMT, hsST⟩ := hshape
  obtain ⟨hvtB, hvtS, hvtP, hvtM, hvtSo⟩ := hvt
  obtain ⟨hvsB, hvsS, hvsP, hvsM, hvsSo⟩ := hvs
  obtain ⟨hndI, hndB, hndS, hndP, hndM, hndSo, hndMS, hndSS, hndMT, hndST⟩ := hnd
  have hbody : (applySnapshot (hardResetSheet t) (getSheetSnapshot s)).body = s.body :=
    stats_roundtrip (pointsCapBySection .body) t.body s.body hsB hndB
      hvtB.1 hvtB.2 hvsB.1 hvsB.2
  have hskills : (applySnapshot (hardResetSheet t) (getSheetSnapshot s)).skills = s.skills :=
    stats_roundtrip (pointsCapBySection .skills) t.skills s.skills hsS hndS
      hvtS.1 hvtS.2 hvsS.1 hvsS.2
  have hprior : (applySnapshot (hardResetSheet t) (getSheetSnapshot s)).priorities
      = s.priorities :=
    stats_roundtrip (pointsCapBySection .priorities) t.priorities s.priorities hsP hndP
      hvtP.1 hvtP.2 hvsP.1 hvsP.2
  have hmindstats : (applySnapshot (hardResetSheet t) (getSheetSnapshot s)).mind.stats
      = s.mind.stats :=
    stats_roundtrip (pointsCapBySection .mind) t.mind.stats s.mind.stats hsM hndM
      hvtM.1 hvtM.2 hvsM.1 hvsM.2
  have hsocialstats : (applySnapshot (hardResetSheet t) (getSheetSnapshot s)).social.stats
      = s.social.stats :=
    stats_roundtrip (pointsCapBySection .social) t.social.stats s.social.stats hsSo hndSo
      hvtSo.1 hvtSo.2 hvsSo.1 hvsSo.2
  have hkeysMS : (t.mind.sliders.map fun r =>
        ({ r with value := r.defaultValue } : SliderRow)).map SliderRow.key
      = s.mind.sliders.map SliderRow.key := by
    rw [List.map_map]; exact hsMS
  have hkeysSS : (t.social.sliders.map fun r =>
        ({ r with value := r.defaultValue } : SliderRow)).map SliderRow.key
      = s.social.sliders.map SliderRow.key := by
    rw [List.map_map]; exact hsSS
  have hmindsliders : getSliders (applySnapshot (hardResetSheet t)
        (getSheetSnapshot s)).mind.sliders = getSliders s.mind.sliders :=
    setSliders_restore_aux (getSliders s.mind.sliders) _ s.mind.sliders hkeysMS
      (lookup_of_map SliderRow.key SliderRow.value s.mind.sliders hndMS)
  have hsocialsliders : getSliders (applySnapshot (hardResetSheet t)
        (getSheetSnapshot s)).social.sliders = getSliders s.social.sliders :=
    setSliders_restore_aux (getSliders s.social.sliders) _ s.social.sliders hkeysSS
      (lookup_of_map SliderRow.key SliderRow.value s.social.sliders hndSS)
  have hlabMT : (clearChecksInFn t.mind.traits).map TraitRow.label
      = s.mind.traits.map TraitRow.label := by
    rw [clearChecksInFn, List.map_map]; exact hsMT
  have hlabST : (clearChecksInFn t.social.traits).map TraitRow.label
      = s.social.traits.map TraitRow.label := by
    rw [clearChecksInFn, List.map_map]; exact hsST
  have hmindtraits : (applySnapshot (hardResetSheet t) (getSheetSnapshot s)).mind.traits
      = s.mind.traits :=
    setChecks_restore_aux (getChecks s.mind.traits) _ s.mind.traits hlabMT
      (lookup_of_map TraitRow.label TraitRow.checked s.mind.traits hndMT)
  have hsocialtraits : (applySnapshot (hardResetSheet t) (getSheetSnapshot s)).social.traits
      = s.social.traits :=
    setChecks_restore_aux (getChecks s.social.traits) _ s.social.traits hlabST
      (lookup_of_map TraitRow.label TraitRow.checked s.social.traits hndST)
  have hkeysI : (t.identity.map fun r =>
        ({ r with value := r.defaultValue } : IdentityRow)).map IdentityRow.key
      = s.identity.map IdentityRow.key := by
    rw [List.map_map]; exact hsI
  have hident : getIdentity (applySnapshot (hardResetSheet t) (getSheetSnapshot s)).identity
      = getIdentity s.identity :=
    setIdentity_restore_aux (getIdentity s.identity) _ s.identity hkeysI
      (lookup_of_map IdentityRow.key IdentityRow.value s.identity hndI)
  set st1 := applySnapshot (hardResetSheet t) (getSheetSnapshot s) with hst1def
  have hnotes : st1.notes = s.notes := by rw [hst1def]; rfl
  have hport0 : st1.portraitData = "" := by rw [hst1def]; rfl
  by_cases hp : s.portraitData = ""
  · have hdata : (getSheetSnapshot s).portrait = none := by
      simp [getSheetSnapshot, hp]
    have happ : applySheetSnapshotV2 t (getSheetSnapshot s) = st1 := by
      rw [hst1def]
      simp only [applySheetSnapshotV2, hdata]
    rw [happ]
    simp only [getSheetSnapshot, Snapshot.mk.injEq, GroupStats.mk.injEq, GroupFull.mk.injEq]
    and_intros <;>
      first
        | rfl
        | exact hident
        | exact hnotes
        | exact congrArg getDotRows hbody
        | exact congrArg getDotRows hskills
        | exact congrArg getDotRows hprior
        | exact congrArg getDotRows hmindstats
        | exact congrArg getDotRows hsocialstats
        | exact hmindsliders
        | exact hsocialsliders
        | exact congrArg getChecks hmindtraits
        | exact congrArg getChecks hsocialtraits
        | simp [hport0, hp]
  · have hdata : (getSheetSnapshot s).portrait = some s.portraitData := by
      simp [getSheetSnapshot, hp]
    have happ : applySheetSnapshotV2 t (getSheetSnapshot s)
        = { st1 with portraitData := s.portraitData } := by
      rw [hst1def]
      simp only [applySheetSnapshotV2, hdata]
      rw [if_neg hp]
    rw [happ]
    simp only [getSheetSnapshot, Snapshot.mk.injEq, GroupStats.mk.injEq, GroupFull.mk.injEq]
    and_intros <;>
      first
        | rfl
        | exact hident
        | exact hnotes
        | exact congrArg getDotRows hbody
        | exact congrArg getDotRows hskills
        | exact congrArg getDotRows hprior
        | exact congrArg getDotRows hmindstats
        | exact congrArg getDotRows hsocialstats
        | exact hmindsliders
        | exact hsocialsliders
        | exact congrArg getChecks hmindtraits
        | exact congrArg getChecks hsocialtraits
        | simp

theorem sheetPointsUsed_stats (st : SheetState) :
    sheetPointsUsed st .body = sumValues st.body
      ∧ sheetPointsUsed st .skills = sumValues st.skills
      ∧ sheetPointsUsed st .priorities = sumValues st.priorities
      ∧ sheetPointsUsed st .mind = sumValues st.mind.stats
      ∧ sheetPointsUsed st .social = sumValues st.social.stats := by
  refine ⟨?_, ?_, ?_, ?_, ?_⟩ <;>
    simp [sheetPointsUsed, sheetSectionOf, SheetSection.pointsUsed, isMindOrSocial, countChecked]

theorem updateAt_getElem? {α : Type} (f : α → α) :
    ∀ (i j : Nat) (l : List α),
      (updateAt f i l)[j]? = if i = j then l[j]?.map f else l[j]? := by
  intro i j l
  induction l generalizing i j with
  | nil => cases i <;> simp [updateAt]
  | cons x xs ih =>
      cases i with
      | zero =>
          cases j with
          | zero => simp [updateAt]
          | succ j => simp [updateAt]
      | succ i =>
          cases j with
          | zero => simp [updateAt]
          | succ j =>
              simp only [updateAt, List.getElem?_cons_succ]
              by_cases h : i = j
              · subst h
                rw [ih i i, if_pos rfl, if_pos rfl]
              · rw [ih i j, if_neg h, if_neg (by omega : ¬ i + 1 = j + 1)]

theorem applyLegacyFieldsGo_length :
    ∀ (fs : List LField) (i : Nat) (ctls : List Ctl),
      (applyLegacyFieldsGo fs i ctls).length = ctls.length := by
  intro fs
  induction fs with
  | nil => intro i ctls; rfl
  | cons f rest ih =>
      intro i ctls
      simp only [applyLegacyFieldsGo]
      rw [ih, updateAt_length]

theorem applyLegacyFieldsGo_getElem? :
    ∀ (fs : List LField) (i : Nat) (ctls : List Ctl) (j : Nat),
      (applyLegacyFieldsGo fs i ctls)[j]? =
        if j < i then ctls[j]? else ctls[j]?.map (entryAt fs (j - i)) := by
  intro fs
  induction fs with
  | nil =>
      intro i ctls j
      show ctls[j]? = _
      cases hx : ctls[j]? <;> simp [hx, entryAt]
  | cons f rest ih =>
      intro i ctls j
      simp only [applyLegacyFieldsGo]
      rw [ih (i + 1) (updateAt (applyLegacyEntry f) i ctls) j]
      rcases Nat.lt_trichotomy j i with h | h | h
      · rw [if_pos (by omega : j < i + 1), if_pos h, updateAt_getElem?,
          if_neg (by omega : ¬ i = j)]
      · rw [if_pos (by omega : j < i + 1), if_neg (by omega : ¬ j < i),
          updateAt_getElem?, if_pos (by omega : i = j),
          (by omega : j - i = 0)]
        cases hx : ctls[j]? <;> simp [hx, entryAt, applyLegacyEntry]
      · rw [if_neg (by omega : ¬ j < i + 1), if_neg (by omega : ¬ j < i),
          updateAt_getElem?, if_neg (by omega : ¬ i = j),
          (by omega : j - i = (j - (i + 1)) + 1)]
        cases hx : ctls[j]? <;> simp [hx, entryAt]

theorem restoreTabs_length (idGen titleGen : Nat → String) :
    ∀ (i : Nat) (raw : List RawTab),
      (restoreTabs idGen titleGen i raw).length = raw.length := by
  intro i raw
  induction raw generalizing i with
  | nil => rfl
  | cons t rest ih => simp [restoreTabs, ih]

theorem restoreTabs_getElem? (idGen titleGen : Nat → String) :
    ∀ (raw : List RawTab) (i j : Nat),
      (restoreTabs idGen titleGen i raw)[j]? =
        raw[j]?.map (restoreRawTab idGen titleGen (i + j)) := by
  intro raw
  induction raw with
  | nil => intro i j; simp [restoreTabs]
  | cons t rest ih =>
      intro i j
      cases j with
      | zero => simp [restoreTabs]
      | succ j =>
          simp only [restoreTabs, List.getElem?_cons_succ]
          rw [ih (i + 1) j, (by omega : i + 1 + j = i + (j + 1))]

theorem any_eq_true_of_id_mem (tabs : List SheetTab) (a : String) :
    tabs.any (fun tab => tab.id == a) = true ↔ a ∈ tabs.map SheetTab.id := by
  rw [List.any_eq_true]
  constructor
  · rintro ⟨t, ht, hp⟩
    have hid : t.id = a := by simpa using hp
    exact hid ▸ List.mem_map_of_mem SheetTab.id ht
  · intro hmem
    rcases List.mem_map.mp hmem with ⟨t, ht, hid⟩
    exact ⟨t, ht, by simp [hid]⟩

theorem find?_map_id_pres (f : SheetTab → SheetTab) (hf : ∀ t, (f t).id = t.id)
    (tabs : List SheetTab) (a : String) :
    (tabs.map f).find? (fun t => t.id == a) = (tabs.find? (fun t => t.id == a)).map f := by
  induction tabs with
  | nil => rfl
  | cons t rest ih =>
      simp only [List.map_cons]
      cases hp : (t.id == a) with
      | false =>
          have hp2 : ((f t).id == a) = false := by rw [hf t]; exact hp
          rw [List.find?_cons_of_neg _ (by simp [hp2]),
            List.find?_cons_of_neg _ (by simp [hp]), ih]
      | true =>
          have hp2 : ((f t).id == a) = true := by rw [hf t]; exact hp
          rw [List.find?_cons_of_pos _ (by simp [hp2]),
            List.find?_cons_of_pos _ (by simp [hp])]
          rfl

theorem commitFun_id (s : Session) (t : SheetTab) : (commitFun s t).id = t.id := by
  simp only [commitFun]
  split <;> rfl

theorem commitFun_ne (s : Session) (t : SheetTab)
    (h : (t.id == s.activeTabId) = false) : commitFun s t = t := by
  simp [commitFun, h]

theorem updateTabDoc_find?_other (tabId : String) (doc : Option TabDoc)
    (tabs : List SheetTab) (a : String) (hne : a ≠ tabId) :
    (updateTabDoc tabId doc tabs).find? (fun t => t.id == a)
      = tabs.find? (fun t => t.id == a) := by
  rw [updateTabDoc,
    find?_map_id_pres _ (fun t => by split <;> rfl) tabs a]
  cases hfind : tabs.find? (fun t => t.id == a) with
  | none => rfl
  | some t =>
      have hid : t.id = a := by simpa using List.find?_some hfind
      simp [hid, hne]

theorem updateTabTitle_find?_other (tabId title : String)
    (tabs : List SheetTab) (a : String) (hne : a ≠ tabId) :
    (updateTabTitle tabId title tabs).find? (fun t => t.id == a)
      = tabs.find? (fun t => t.id == a) := by
  rw [updateTabTitle,
    find?_map_id_pres _ (fun t => by split <;> rfl) tabs a]
  cases hfind : tabs.find? (fun t => t.id == a) with
  | none => rfl
  | some t =>
      have hid : t.id = a := by simpa using List.find?_some hfind
      simp [hid, hne]

theorem applyTabSnapshot_find?_other (blank : Snapshot) (s : Session)
    (tabId a : String) (hne : a ≠ tabId) :
    (applyTabSnapshot blank s tabId).tabs.find? (fun t => t.id == a)
      = s.tabs.find? (fun t => t.id == a) := by
  simp only [applyTabSnapshot]
  split_ifs <;>
    simp [updateTabTitle_find?_other _ _ _ _ hne, updateTabDoc_find?_other _ _ _ _ hne]

theorem applyTabSnapshot_full (blank : Snapshot) (s : Session) (tabId : String)
    (t : SheetTab) (d : Snapshot)
    (hfind : s.tabs.find? (fun tab => tab.id == tabId) = some t)
    (hdata : t.data = some (.full d)) :
    (applyTabSnapshot blank s tabId).live = applySheetSnapshotV2 s.live d
      ∧ (applyTabSnapshot blank s tabId).relMap = t.relationships
      ∧ (applyTabSnapshot blank s tabId).relSel = t.relationshipSelection := by
  simp only [applyTabSnapshot, hfind, hdata]
  refine ⟨?_, rfl, rfl⟩
  simp [hdata]

theorem relMap_get_set (m : RelMap) (k1 k2 : RelKind) (l : List RelEntry) :
    (m.set k1 l).get k2 = if k2 = k1 then l else m.get k2 := by
  cases k1 <;> cases k2 <;> simp [RelMap.get, RelMap.set]

theorem relSel_get_set (m : RelSel) (k1 k2 : RelKind) (v : Option String) :
    (m.set k1 v).get k2 = if k2 = k1 then v else m.get k2 := by
  cases k1 <;> cases k2 <;> simp [RelSel.get, RelSel.set]

/-! ## The claims -/

/-- **C1.**  For every budget-capped allocation group (body, skills,
priorities, mind, social) and every state reachable from the initial
all-zero state by any finite sequence of pip-click and trait-toggle
interactions, `pointsUsed(group) ≤ cap(group)` holds after each interaction
completes, where `pointsUsed` sums the group's dot counts plus, for groups
other than mind and social, the checked boolean traits. -/
theorem budget_invariant_reachable (name : SectionName) (s0 s : SheetSection)
    (h0 : allZeroSection s0) (hr : Reachable name s0 s) :
    s.pointsUsed name ≤ pointsCapBySection name := by
  induction hr with
  | refl =>
      obtain ⟨hst, htr⟩ := h0
      have h1 : sumValues s0.stats = 0 := by
        simp only [sumValues]
        apply List.sum_eq_zero
        intro x hx
        obtain ⟨st, hmem, rfl⟩ := List.mem_map.mp hx
        exact hst st hmem
      have h2 : countChecked s0.traits = 0 := by
        simp only [countChecked]
        apply List.countP_eq_zero.mpr
        intro r hr2
        simp [htr r hr2]
      rw [pointsUsed_def]
      split_ifs <;> omega
  | tail hab hbc ih => exact step_preserves_budget hbc ih

/-- Witness for `budget_invariant_reachable`: one `.ef-stat-dots` click on
the one-stat body group starting from zero. -/
theorem budget_invariant_reachable_witness :
    (applyPipClick efUserPipClick .body bodyZeroExample 0 1).pointsUsed .body
      ≤ pointsCapBySection .body :=
  budget_invariant_reachable .body bodyZeroExample _
    (by refine ⟨?_, ?_⟩ <;> decide)
    (Relation.ReflTransGen.tail Relation.ReflTransGen.refl
      (Step.efPip bodyZeroExample 0 1 (by decide) (by decide) (by decide)))

/-- **C2.**  Budget Enforcer decision: writing `desired` for the value a pip
interaction on pip `k` of a stat at value `v` asks for (`0` on the
currently-last filled pip, `k` otherwise), an attempted increase
(`desired > v`) is refused - the stat keeps value `v` - exactly when
`otherPoints + desired > cap` with `otherPoints = pointsUsed - v`, and every
decrease (`desired ≤ v`) is permitted unconditionally.  The same refusal rule
governs the legacy `.dots` listener, whose click on a filled pip `k` is the
unconditional decrease to `k - 1`. -/
theorem pip_budget_decision (cap used v k : Nat) (hvu : v ≤ used) (hcap : used ≤ cap)
    (hk1 : 1 ≤ k) :
    (statDotsClick v k ≤ v → efUserPipClick cap used v k = statDotsClick v k) ∧
    (v < statDotsClick v k →
      efUserPipClick cap used v k =
        if cap < used - v + statDotsClick v k then v else statDotsClick v k) ∧
    (v < k → legacyUserPipClick cap used v k = if cap < used - v + k then v else k) ∧
    (k ≤ v → legacyUserPipClick cap used v k = k - 1) := by
  refine ⟨?_, ?_, ?_, ?_⟩
  · intro hd
    simp only [efUserPipClick, programmaticPipClick, efVetoed, pipDisabled, statDotsClick,
      decide_eq_true_eq, Bool.or_eq_true, gt_iff_lt] at *
    split_ifs at hd ⊢ <;> simp only [decide_eq_true_eq, Bool.or_eq_true, not_or] at * <;> omega
  · intro hd
    simp only [efUserPipClick, programmaticPipClick, efVetoed, pipDisabled, statDotsClick,
      decide_eq_true_eq, Bool.or_eq_true, gt_iff_lt] at *
    split_ifs at hd ⊢ <;> simp only [decide_eq_true_eq, Bool.or_eq_true, not_or] at * <;> omega
  · intro hvk
    simp only [legacyUserPipClick, legacyClickValue, pipDisabled,
      decide_eq_true_eq, Bool.or_eq_true, gt_iff_lt]
    rcases le_total ((cap : Int) - ((used : Int) - (v : Int))) 0 with hco | hco
    · rw [max_eq_left hco, min_eq_right (Int.ofNat_nonneg k)]
      split_ifs <;> simp only [decide_eq_true_eq, Bool.or_eq_true, not_or] at * <;> omega
    · rw [max_eq_right hco]
      rcases le_total (k : Int) ((cap : Int) - ((used : Int) - (v : Int))) with hm | hm
      · rw [min_eq_left hm]
        split_ifs <;> simp only [decide_eq_true_eq, Bool.or_eq_true, not_or] at * <;> omega
      · rw [min_eq_right hm]
        split_ifs <;> simp only [decide_eq_true_eq, Bool.or_eq_true, not_or] at * <;> omega
  · intro hkv
    simp only [legacyUserPipClick, legacyClickValue, pipDisabled,
      decide_eq_true_eq, Bool.or_eq_true, gt_iff_lt]
    split_ifs <;> simp only [decide_eq_true_eq, Bool.or_eq_true, not_or] at * <;> omega

/-- Witness for `pip_budget_decision`: with cap 20, 18 points used and a
stat at 2, asking pip 6 (desired 6, otherPoints 16, 16 + 6 > 20) is refused
and the stat keeps value 2. -/
theorem pip_budget_decision_witness :
    2 ≤ 18 ∧ 18 ≤ 20 ∧ 1 ≤ 6 ∧ efUserPipClick 20 18 2 6 = 2 := by
  refine ⟨by decide, by decide, by decide, ?_⟩
  have h2 := (pip_budget_decision 20 18 2 6 (by decide) (by decide) (by decide)).2.1 (by decide)
  simpa using h2

/-- **C3** fails on the code: the cited `.dots` click listeners
(part_003 lines 46-60, and part_002 lines 722-747 likewise) read
`box.checked` after the native checkbox toggle, so a click on the last
filled pip of a 2-pip stat at value 2 yields value 1 (a decrement), not the
claimed toggle-off to 0. -/
theorem dots_toggle_off_counterexample :
    dotsValue (dotsClickBoxes (prefixBoxes 2 2) (2 - 1)) = 1 ∧
      dotsValue (dotsClickBoxes (prefixBoxes 2 2) (2 - 1)) ≠ 0 := by decide

/-- **C3 (amended).**  For a dot-grid stat with `n` pips at value
`v ∈ [0, n]`, a click on pip `k` (1-based) sets the value to `k` when pip
`k` is unfilled (`v < k`) and to `k - 1` when pip `k` is filled (`k ≤ v`) -
clicking the last filled pip decrements rather than clearing - and after the
click pip `i` is filled iff `i ≤` the new value (the row stays a prefix). -/
theorem dots_click_characterization (n v k : Nat) (hv : v ≤ n) (hk1 : 1 ≤ k) (hkn : k ≤ n) :
    dotsClickBoxes (prefixBoxes n v) (k - 1) = prefixBoxes n (if v < k then k else k - 1) ∧
      dotsValue (dotsClickBoxes (prefixBoxes n v) (k - 1)) = if v < k then k else k - 1 := by
  have h := dotsClickBoxes_prefix n v k hk1 hkn
  refine ⟨h, ?_⟩
  rw [h]
  split_ifs with h1
  · exact dotsValue_prefixBoxes n k (by omega)
  · exact dotsValue_prefixBoxes n (k - 1) (by omega)

/-- Witness for `dots_click_characterization`: a 3-pip stat at value 1,
click on pip 3 - the row becomes the full prefix of 3. -/
theorem dots_click_characterization_witness :
    dotsClickBoxes (prefixBoxes 3 1) (3 - 1) = prefixBoxes 3 3 ∧
      dotsValue (dotsClickBoxes (prefixBoxes 3 1) (3 - 1)) = 3 := by
  simpa using dots_click_characterization 3 1 3 (by decide) (by decide) (by decide)

/-- **C4.**  Applying a snapshot produced by `getSheetSnapshot` from a sheet
state reachable by valid operations (such states satisfy the budget
invariant, stat values within their pip counts, and the form's duplicate-free
labels) and reading the sheet back returns an equal snapshot: identity
values, the notes sequence, every group's stats, sliders and traits, and the
portrait are reconstructed exactly.  The live sheet the snapshot is applied
to may hold any valid values of the same rendered form. -/
theorem snapshot_roundtrip (s t : SheetState) (hshape : SameShape t s)
    (hvt : ValidSheet t) (hvs : ValidSheet s) (hnd : NodupSheet s) :
    getSheetSnapshot (applySheetSnapshotV2 t (getSheetSnapshot s)) = getSheetSnapshot s :=
  applySheet_roundtrip t s hshape hvt hvs hnd

/-- Witness for `snapshot_roundtrip`: the App form with 18 body points and a
portrait, exported and reapplied over the freshly rendered form. -/
theorem snapshot_roundtrip_witness :
    getSheetSnapshot (applySheetSnapshotV2 appInitialState (getSheetSnapshot appExampleState))
      = getSheetSnapshot appExampleState :=
  snapshot_roundtrip appExampleState appInitialState (by decide) (by decide) (by decide)
    (by decide)

/-- **C5** fails on the code: applying a version-2 snapshot that asks the
social group (cap 15) for Charisma 5, Empathy 5, Generosity 5 and Wealth 1
ends with `pointsUsed(social) = 16 > 15`.  The capture-phase guard's
`desiredValue` shortcut (`targetIndex === currentValue` maps to desired 0)
never cancels a click that raises a cleared stat to 1, so the final 1-point
stat slips past the cap instead of being cleared; a 2-point request in the
same place is clamped (cleared) as the claim describes. -/
theorem over_budget_snapshot_not_clamped :
    sheetPointsUsed (applySheetSnapshotV2 appInitialState overBudgetSocialSnapshot) .social = 16
      ∧ pointsCapBySection .social = 15
      ∧ (applySheetSnapshotV2 appInitialState overBudgetSocialSnapshot).social.stats.map
          Stat.value = [5, 5, 5, 1, 0, 0] := by decide

/-- **C8.**  `resetSectionPoints(g)` - which unwinds filled pips through the
Dot-Grid toggle-off click pipeline rather than assigning zero directly -
clears exactly group `g`'s stats and boolean traits, leaves `g`'s sliders
untouched, and leaves every other group and the identity, notes and portrait
unchanged.  (The group must be within its budget, as every state reachable
by user interactions is: the toggle-off click of an over-budget group would
itself be vetoed.) -/
theorem resetSectionPoints_spec (name : SectionName) (st : SheetState)
    (hused : sheetPointsUsed st name ≤ pointsCapBySection name) :
    (sheetSectionOf (resetSectionPointsFn name st) name).stats
        = (sheetSectionOf st name).stats.map (fun x => { x with value := 0 })
      ∧ (sheetSectionOf (resetSectionPointsFn name st) name).traits
        = (sheetSectionOf st name).traits.map (fun r => { r with checked := false })
      ∧ (sheetSectionOf (resetSectionPointsFn name st) name).sliders
        = (sheetSectionOf st name).sliders
      ∧ (∀ other : SectionName, other ≠ name →
          sheetSectionOf (resetSectionPointsFn name st) other = sheetSectionOf st other)
      ∧ (resetSectionPointsFn name st).identity = st.identity
      ∧ (resetSectionPointsFn name st).notes = st.notes
      ∧ (resetSectionPointsFn name st).portraitData = st.portraitData := by
  cases name with
  | body =>
      have hstats := sheetPointsUsed_stats st
      refine ⟨?_, rfl, rfl, ?_, rfl, rfl, rfl⟩
      · exact resetStatDots_zeroes_aux _ st.body 0 (by omega)
      · intro other hne
        cases other <;> first | exact absurd rfl hne | rfl
  | skills =>
      have hsum : sumValues st.skills ≤ pointsCapBySection .skills := by
        have h := (sheetPointsUsed_stats st).2.1
        omega
      refine ⟨?_, rfl, rfl, ?_, rfl, rfl, rfl⟩
      · exact resetStatDots_zeroes_aux _ st.skills 0 (by omega)
      · intro other hne
        cases other <;> first | exact absurd rfl hne | rfl
  | priorities =>
      have hsum : sumValues st.priorities ≤ pointsCapBySection .priorities := by
        have h := (sheetPointsUsed_stats st).2.2.1
        omega
      refine ⟨?_, rfl, rfl, ?_, rfl, rfl, rfl⟩
      · exact resetStatDots_zeroes_aux _ st.priorities 0 (by omega)
      · intro other hne
        cases other <;> first | exact absurd rfl hne | rfl
  | mind =>
      have hsum : sumValues st.mind.stats ≤ pointsCapBySection .mind := by
        have h := (sheetPointsUsed_stats st).2.2.2.1
        omega
      refine ⟨?_, rfl, rfl, ?_, rfl, rfl, rfl⟩
      · exact resetStatDots_zeroes_aux _ st.mind.stats 0 (by omega)
      · intro other hne
        cases other <;> first | exact absurd rfl hne | rfl
  | social =>
      have hsum : sumValues st.social.stats ≤ pointsCapBySection .social := by
        have h := (sheetPointsUsed_stats st).2.2.2.2
        omega
      refine ⟨?_, rfl, rfl, ?_, rfl, rfl, rfl⟩
      · exact resetStatDots_zeroes_aux _ st.social.stats 0 (by omega)
      · intro other hne
        cases other <;> first | exact absurd rfl hne | rfl

/-- Witness for `resetSectionPoints_spec`: resetting the social group of the
example sheet clears its stats and leaves the body group alone. -/
theorem resetSectionPoints_spec_witness :
    (sheetSectionOf (resetSectionPointsFn .social appExampleState) .social).stats
        = (sheetSectionOf appExampleState .social).stats.map (fun x => { x with value := 0 })
      ∧ sheetSectionOf (resetSectionPointsFn .social appExampleState) .body
        = sheetSectionOf appExampleState .body :=
  ⟨(resetSectionPoints_spec .social appExampleState (by decide)).1,
    (resetSectionPoints_spec .social appExampleState (by decide)).2.2.2.1 .body (by decide)⟩

/-- **C6.**  When `applySheetSnapshot` receives a legacy `{fields: [{t, v}]}`
document, entry `i` is mapped 1:1 onto the `i`-th interactive control in
document order: an entry with `t == "c"` sets the control's checked state to
the boolean of `v`, any other entry sets the control's string value to `v`
(empty string when `v` is null/undefined); extra array entries are ignored
(the control list keeps its length) and controls beyond the array's length
keep their just-reset values. -/
theorem legacy_fields_mapping (ctls : List Ctl) (fs : List LField) :
    (applyLegacyFields ctls fs).length = ctls.length
      ∧ (∀ (i : Nat) (f : LField) (c : Ctl), fs[i]? = some f → ctls[i]? = some c →
          (applyLegacyFields ctls fs)[i]? =
            some (if f.t = "c" then { c with checked := f.v.truthy }
                  else { c with value := f.v.toValueString }))
      ∧ (∀ (i : Nat) (c : Ctl), fs.length ≤ i → ctls[i]? = some c →
          (applyLegacyFields ctls fs)[i]? = some c) := by
  refine ⟨applyLegacyFieldsGo_length fs 0 ctls, ?_, ?_⟩
  · intro i f c hf hc
    rw [applyLegacyFields, applyLegacyFieldsGo_getElem?,
      if_neg (by omega : ¬ i < 0), Nat.sub_zero, hc]
    simp [entryAt, hf, applyLegacyEntry]
  · intro i c hle hc
    have hfnone : fs[i]? = none := by
      rw [List.getElem?_eq_none_iff]
      exact hle
    rw [applyLegacyFields, applyLegacyFieldsGo_getElem?,
      if_neg (by omega : ¬ i < 0), Nat.sub_zero, hc]
    simp [entryAt, hfnone]

/-- Witness for `legacy_fields_mapping`: the legacy document
`{fields:[{t:"c",v:true}, {t:"t",v:"Bob"}]}` applied to a three-control
frame checks the first control, writes "Bob" into the second, and leaves
the third at its just-reset value. -/
theorem legacy_fields_mapping_witness :
    (applyLegacyFields demoCtls demoFields).length = 3
      ∧ (applyLegacyFields demoCtls demoFields)[0]? =
          some { checked := true, value := "" }
      ∧ (applyLegacyFields demoCtls demoFields)[1]? =
          some { checked := false, value := "Bob" }
      ∧ (applyLegacyFields demoCtls demoFields)[2]? =
          some { checked := false, value := "x" } := by
  have h := legacy_fields_mapping demoCtls demoFields
  refine ⟨h.1, ?_, ?_, ?_⟩
  · have hx := h.2.1 0 { t := "c", v := .vBool true }
      { checked := false, value := "" } rfl rfl
    simpa using hx
  · have hx := h.2.1 1 { t := "t", v := .vStr "Bob" }
      { checked := false, value := "" } rfl rfl
    simpa using hx
  · exact h.2.2 2 { checked := false, value := "x" } (by decide) rfl

/-- **C9.**  `createInitialTabs` always returns a non-empty tab list with an
`activeId` equal to one of the returned tabs' ids; a missing, unparsable, or
tab-less stored blob - and an empty stored tab array - yield exactly one
fresh active tab; a stored entry whose id is absent receives a generated id
and one whose title is absent or blank receives a generated Untitled title,
everything else passing through normalized; and a stored `activeId` is kept
exactly when it names a restored tab, otherwise the first tab's id is used. -/
theorem createInitialTabs_normalization (fallbackId : String)
    (idGen titleGen : Nat → String) :
    (∀ st : StoredState,
        (createInitialTabs fallbackId idGen titleGen st).tabs ≠ []
          ∧ (createInitialTabs fallbackId idGen titleGen st).activeId ∈
              (createInitialTabs fallbackId idGen titleGen st).tabs.map SheetTab.id)
      ∧ createInitialTabs fallbackId idGen titleGen .noStore
          = createFreshSession fallbackId titleGen
      ∧ createInitialTabs fallbackId idGen titleGen .badJson
          = createFreshSession fallbackId titleGen
      ∧ (∀ act, createInitialTabs fallbackId idGen titleGen (.parsed act none)
          = createFreshSession fallbackId titleGen)
      ∧ (∀ act, createInitialTabs fallbackId idGen titleGen (.parsed act (some []))
          = createFreshSession fallbackId titleGen)
      ∧ (∀ (act : Option String) (raw : List RawTab) (i : Nat) (t : RawTab),
          raw[i]? = some t →
            (createInitialTabs fallbackId idGen titleGen
                (.parsed act (some raw))).tabs[i]?
              = some
                  { id := t.id.getD (idGen i)
                    title :=
                      match t.title with
                      | some s => if jsTrim s ≠ "" then s else titleGen (i + 1)
                      | none => titleGen (i + 1)
                    data := t.data
                    relationships := normalizeRelationshipMap t.relationships
                    relationshipSelection :=
                      normalizeRelationshipSelection t.relationshipSelection })
      ∧ (∀ (a : String) (raw : List RawTab),
          ((createInitialTabs fallbackId idGen titleGen
              (.parsed (some a) (some raw))).tabs.any (fun tab => tab.id == a)) = true →
            (createInitialTabs fallbackId idGen titleGen
              (.parsed (some a) (some raw))).activeId = a)
      ∧ (∀ (act : Option String) (raw : List RawTab),
          (∀ a, act = some a →
            ((createInitialTabs fallbackId idGen titleGen
                (.parsed act (some raw))).tabs.any (fun tab => tab.id == a)) = false) →
            some (createInitialTabs fallbackId idGen titleGen
                (.parsed act (some raw))).activeId
              = ((createInitialTabs fallbackId idGen titleGen
                  (.parsed act (some raw))).tabs.map SheetTab.id)[0]?) := by
  refine ⟨?_, rfl, rfl, fun act => rfl, fun act => rfl, ?_, ?_, ?_⟩
  · intro st
    cases st with
    | noStore => exact ⟨by simp [createInitialTabs, createFreshSession],
        by simp [createInitialTabs, createFreshSession, freshTab]⟩
    | badJson => exact ⟨by simp [createInitialTabs, createFreshSession],
        by simp [createInitialTabs, createFreshSession, freshTab]⟩
    | parsed act rawOpt =>
        cases hres : restoreTabs idGen titleGen 0 (rawOpt.getD []) with
        | nil =>
            simp [createInitialTabs, hres, createFreshSession, freshTab]
        | cons t0 rest =>
            simp only [createInitialTabs, hres]
            refine ⟨by simp, ?_⟩
            cases act with
            | none => simp
            | some a =>
                by_cases hc : (t0 :: rest).any (fun tab => tab.id == a) = true
                · simp only [hc, if_true]
                  exact (any_eq_true_of_id_mem _ a).mp hc
                · have hc2 := eq_false_of_ne_true hc
                  simp [hc2]
  · intro act raw i t ht
    have hlen := restoreTabs_length idGen titleGen 0 raw
    cases hres : restoreTabs idGen titleGen 0 raw with
    | nil =>
        rw [hres] at hlen
        have hraw : raw = [] := List.eq_nil_of_length_eq_zero hlen.symm
        rw [hraw] at ht
        simp at ht
    | cons t0 rest =>
        simp only [createInitialTabs, Option.getD_some, hres]
        rw [← hres, restoreTabs_getElem? idGen titleGen raw 0 i, ht]
        simp [restoreRawTab]
  · intro a raw hany
    cases hres : restoreTabs idGen titleGen 0 raw with
    | nil =>
        simp only [createInitialTabs, Option.getD_some, hres] at hany ⊢
        simp [createFreshSession, freshTab] at hany ⊢
        exact hany
    | cons t0 rest =>
        simp only [createInitialTabs, Option.getD_some, hres] at hany ⊢
        simp [hany]
  · intro act raw hforall
    cases hres : restoreTabs idGen titleGen 0 raw with
    | nil =>
        simp only [createInitialTabs, Option.getD_some, hres]
        cases act <;> simp [createFreshSession, freshTab]
    | cons t0 rest =>
        simp only [createInitialTabs, Option.getD_some, hres] at hforall ⊢
        cases act with
        | none => simp
        | some a =>
            have h2 := hforall a rfl
            simp [h2]

/-- Witness for `createInitialTabs_normalization`: restoring a blob with a
nameless blank-titled entry and an unmatched activeId yields a generated id
"gen-0", the title "Untitled 1", and the first tab as active; a bad blob
still yields a tab. -/
theorem createInitialTabs_normalization_witness :
    (createInitialTabs "tab-1" demoIdGen demoTitleGen .badJson).tabs ≠ []
      ∧ (createInitialTabs "tab-1" demoIdGen demoTitleGen demoStored).tabs[0]? =
          some { id := "gen-0", title := "Untitled 1", data := none,
                 relationships := createRelationshipDefaults,
                 relationshipSelection := createRelationshipSelectionDefaults }
      ∧ (createInitialTabs "tab-1" demoIdGen demoTitleGen demoStored).activeId
          = "gen-0" := by
  have h := createInitialTabs_normalization "tab-1" demoIdGen demoTitleGen
  refine ⟨(h.1 .badJson).1, ?_, ?_⟩
  · have hx := h.2.2.2.2.2.1 (some "zzz") demoRawTabs 0
      { id := none, title := some "  ", data := none,
        relationships := none, relationshipSelection := none } rfl
    exact hx.trans (by decide)
  · have hy := h.2.2.2.2.2.2.2 (some "zzz") demoRawTabs
      (fun a ha => by injection ha with h2; subst h2; decide)
    exact Option.some.inj (hy.trans (by decide))

/-- **C10.**  After `handleRelationshipImport` for a batch of files aimed at
one relationship kind, the successfully parsed entries are prepended, in
file order, to that kind's list only; the kind's selection becomes the id of
the first newly imported entry exactly when the kind had no selection before
(JS reads `null` and the empty string as unselected) and at least one file
parsed; and the other kinds' lists and selections are untouched. -/
theorem relationship_import_spec (target : RelKind) (entries : List (Option RelEntry))
    (rm : RelMap) (sel : RelSel) :
    (handleRelationshipImport target entries rm sel).1.get target
        = entries.filterMap (fun e => e) ++ rm.get target
      ∧ (∀ k, k ≠ target →
          (handleRelationshipImport target entries rm sel).1.get k = rm.get k
            ∧ (handleRelationshipImport target entries rm sel).2.get k = sel.get k)
      ∧ (entries.filterMap (fun e => e) = [] ∨ selectionFalsy (sel.get target) = false →
          (handleRelationshipImport target entries rm sel).2.get target = sel.get target)
      ∧ (∀ (v : RelEntry) (vs : List RelEntry),
          entries.filterMap (fun e => e) = v :: vs →
            selectionFalsy (sel.get target) = true →
            (handleRelationshipImport target entries rm sel).2.get target = some v.id) := by
  cases hv : entries.filterMap (fun e => e) with
  | nil =>
      refine ⟨?_, ?_, ?_, ?_⟩
      · simp [handleRelationshipImport, hv]
      · intro k hk
        constructor <;> simp [handleRelationshipImport, hv]
      · intro h
        simp [handleRelationshipImport, hv]
      · intro v vs hveq
        simp at hveq
  | cons v0 vs0 =>
      refine ⟨?_, ?_, ?_, ?_⟩
      · simp [handleRelationshipImport, hv, relMap_get_set]
      · intro k hk
        constructor
        · simp [handleRelationshipImport, hv, relMap_get_set, hk]
        · by_cases hf : selectionFalsy (sel.get target) = true
          · simp [handleRelationshipImport, hv, hf, relSel_get_set, hk]
          · have hf2 := eq_false_of_ne_true hf
            simp [handleRelationshipImport, hv, hf2]
      · intro h
        rcases h with h | h
        · simp at h
        · simp [handleRelationshipImport, hv, h]
      · intro v vs hveq hfal
        injection hveq with h1 h2
        simp [handleRelationshipImport, hv, hfal, relSel_get_set, h1]

/-- Witness for `relationship_import_spec`: importing two parsed files (one
failed parse between them) into `friends` prepends them before the existing
entry, selects the first new id because nothing was selected, and leaves the
`love` list and selection alone. -/
theorem relationship_import_spec_witness :
    (handleRelationshipImport .friends [some demoEntryA, none, some demoEntryB]
        demoRelMap demoRelSel).1.friends = [demoEntryA, demoEntryB, demoOldEntry]
      ∧ (handleRelationshipImport .friends [some demoEntryA, none, some demoEntryB]
          demoRelMap demoRelSel).2.friends = some "r1"
      ∧ (handleRelationshipImport .friends [some demoEntryA, none, some demoEntryB]
          demoRelMap demoRelSel).1.love = []
      ∧ (handleRelationshipImport .friends [some demoEntryA, none, some demoEntryB]
          demoRelMap demoRelSel).2.love = some "x" := by
  have h := relationship_import_spec .friends [some demoEntryA, none, some demoEntryB]
    demoRelMap demoRelSel
  refine ⟨?_, ?_, ?_, ?_⟩
  · exact h.1.trans (by decide)
  · exact (h.2.2.2 demoEntryA [demoEntryB] (by decide) (by decide)).trans (by decide)
  · exact (h.2.1 .love (by decide)).1.trans (by decide)
  · exact (h.2.1 .love (by decide)).2.trans (by decide)

/-- **C7.**  Mutating the live sheet and relationship registry while tab A
is active, switching to another tab B via `setActiveTab` and later switching
back to A, restores exactly the state of A committed at the moment of the
switch away: the re-applied sheet snapshots back to A's committed snapshot
(identity, notes, stats, sliders, traits, portrait) and the registry and
selection are A's committed ones - never stale data and never data from B.
Hypotheses: A and B differ, A's tab is found, and the sheet states are
valid, duplicate-free and of the rendered shape, as every state reachable
by valid operations is. -/
theorem tab_isolation (blank : Snapshot) (s : Session) (bId : String)
    (live2 : SheetState) (rm2 : RelMap) (sel2 : RelSel) (tA : SheetTab)
    (hAB : s.activeTabId ≠ bId)
    (hfind : s.tabs.find? (fun tab => tab.id == s.activeTabId) = some tA)
    (hvA : ValidSheet s.live) (hndA : NodupSheet s.live)
    (hv2 : ValidSheet live2) (hsh : SameShape live2 s.live) :
    getSheetSnapshot (switchMutateSwitch blank s bId live2 rm2 sel2).live
        = getSheetSnapshot s.live
      ∧ (switchMutateSwitch blank s bId live2 rm2 sel2).relMap = s.relMap
      ∧ (switchMutateSwitch blank s bId live2 rm2 sel2).relSel = s.relSel := by
  have hpA : (tA.id == s.activeTabId) = true := by
    simpa using List.find?_some hfind
  have hidA : tA.id = s.activeTabId := by simpa using hpA
  have hbneq : (bId == s.activeTabId) = false := by
    simp only [beq_eq_false_iff_ne]
    exact fun h => hAB h.symm
  have haneq : (s.activeTabId == bId) = false := by
    simp only [beq_eq_false_iff_ne]
    exact hAB
  have hs1 : setActiveTab blank s bId
      = applyTabSnapshot blank { commitActiveTab s with activeTabId := bId } bId := by
    simp [setActiveTab, hbneq]
  have hfC : ({ commitActiveTab s with activeTabId := bId } : Session).tabs.find?
      (fun tab => tab.id == s.activeTabId) = some (commitFun s tA) := by
    show (s.tabs.map (commitFun s)).find? (fun tab => tab.id == s.activeTabId) = _
    rw [find?_map_id_pres (commitFun s) (commitFun_id s), hfind]
    rfl
  have hf1 : (setActiveTab blank s bId).tabs.find?
      (fun tab => tab.id == s.activeTabId) = some (commitFun s tA) := by
    rw [hs1, applyTabSnapshot_find?_other blank _ bId s.activeTabId hAB, hfC]
  obtain ⟨s2, hs2⟩ : ∃ x, mutateLive (setActiveTab blank s bId) live2 rm2 sel2 = x :=
    ⟨_, rfl⟩
  have hf2 : s2.tabs.find? (fun tab => tab.id == s.activeTabId)
      = some (commitFun s tA) := by
    rw [← hs2]
    exact hf1
  have hact2 : s2.activeTabId = bId := by
    rw [← hs2]
    show (setActiveTab blank s bId).activeTabId = bId
    rw [hs1]
    rfl
  have hlive2eq : s2.live = live2 := by
    rw [← hs2]
    rfl
  have hsw : switchMutateSwitch blank s bId live2 rm2 sel2
      = setActiveTab blank s2 s.activeTabId := by
    show setActiveTab blank (mutateLive (setActiveTab blank s bId) live2 rm2 sel2)
        s.activeTabId = _
    rw [hs2]
  have haneq2 : (s.activeTabId == s2.activeTabId) = false := by
    rw [hact2]
    exact haneq
  have hs3 : setActiveTab blank s2 s.activeTabId
      = applyTabSnapshot blank { commitActiveTab s2 with activeTabId := s.activeTabId }
          s.activeTabId := by
    simp [setActiveTab, haneq2]
  have hkeep : commitFun s2 (commitFun s tA) = commitFun s tA := by
    apply commitFun_ne
    rw [commitFun_id, hidA, hact2]
    exact haneq
  have hfC2 : ({ commitActiveTab s2 with activeTabId := s.activeTabId } : Session).tabs.find?
      (fun tab => tab.id == s.activeTabId) = some (commitFun s tA) := by
    show (s2.tabs.map (commitFun s2)).find? (fun tab => tab.id == s.activeTabId) = _
    rw [find?_map_id_pres _ (commitFun_id _), hf2]
    simp [hkeep]
  have hdataA : (commitFun s tA).data = some (.full (getSheetSnapshot s.live)) := by
    simp [commitFun, hpA]
  have happ := applyTabSnapshot_full blank
    { commitActiveTab s2 with activeTabId := s.activeTabId } s.activeTabId
    (commitFun s tA) (getSheetSnapshot s.live) hfC2 hdataA
  have hliveC2 : ({ commitActiveTab s2 with activeTabId := s.activeTabId } : Session).live
      = live2 := by
    show s2.live = live2
    exact hlive2eq
  have hrelA : (commitFun s tA).relationships = s.relMap := by
    simp [commitFun, hpA]
  have hselA : (commitFun s tA).relationshipSelection = s.relSel := by
    simp [commitFun, hpA]
  refine ⟨?_, ?_, ?_⟩
  · rw [hsw, hs3, happ.1, hliveC2]
    exact applySheet_roundtrip live2 s.live hsh hv2 hvA hndA
  · rw [hsw, hs3, happ.2.1, hrelA]
  · rw [hsw, hs3, happ.2.2, hselA]

/-- Witness for `tab_isolation`: on a two-tab session over the App's initial
sheet, switching to tab "b", replacing the live sheet with the example sheet
and the registry with fresh defaults, and switching back to "a" restores the
committed snapshot and registry of "a". -/
theorem tab_isolation_witness :
    getSheetSnapshot (switchMutateSwitch demoBlank demoSession "b" appExampleState
        createRelationshipDefaults createRelationshipSelectionDefaults).live
      = getSheetSnapshot appInitialState
      ∧ (switchMutateSwitch demoBlank demoSession "b" appExampleState
          createRelationshipDefaults createRelationshipSelectionDefaults).relMap
        = demoRelMap
      ∧ (switchMutateSwitch demoBlank demoSession "b" appExampleState
          createRelationshipDefaults createRelationshipSelectionDefaults).relSel
        = demoRelSel :=
  tab_isolation demoBlank demoSession "b" appExampleState
    createRelationshipDefaults createRelationshipSelectionDefaults demoTabA
    (by decide) (by decide) (by decide) (by decide) (by decide) (by decide)

end CharSheet
